import Mathlib

/-! Map settings: viewport derivation, coordinate routing and full extent.

A shallow embedding of `src/core/qgsmapsettings.cpp`.

* The file is embedded twice. In the first embedding `double` values are read as
  exact rationals (`ℚ`): no rounding, no underflow, no overflow; the literals
  `0.5`, `1e-12`, `1e-8` are the rationals `1/2`, `1/10^12`, `1/10^8`. Statements
  proved there hold of the program read over exact reals.
* The second embedding (`Dbl`, namespace `Machine`) is the viewport derivation in
  IEEE 754 binary64, every operation rounded to nearest, ties to even, with
  subnormals, infinities and NaN. It is where a statement that depends on
  rounding or underflow is evaluated.
* `int` values (output size, DPI) are `Int`.
* The mutable object is an explicit record `QgsMapSettings`; every member
  function is a function from the record to the new record (or to the value
  it returns).
* Collaborators that live outside the file (scale calculation, the layer
  registry, the coordinate-transform cache) are parameters.
* `QgsDebugMsg` and `QgsMessageLog::logMessage` write to a diagnostic sink and
  change no member; they are left out.
-/

namespace MapSettings

/-! ## Collaborator types -/

/-- Modelled from the spec: `QgsRectangle` (declared in `qgsrectangle.h`, which is
not among the sources). An axis-aligned rectangle `(xmin, ymin, xmax, ymax)`. -/
structure QgsRectangle where
  xmin : ℚ
  ymin : ℚ
  xmax : ℚ
  ymax : ℚ
deriving DecidableEq

namespace QgsRectangle

/-- Modelled from the spec: the default-constructed rectangle, all four
coordinates zero (the viewport "is created with empty extent"). -/
def default : QgsRectangle := ⟨0, 0, 0, 0⟩

def xMinimum (r : QgsRectangle) : ℚ := r.xmin
def yMinimum (r : QgsRectangle) : ℚ := r.ymin
def xMaximum (r : QgsRectangle) : ℚ := r.xmax
def yMaximum (r : QgsRectangle) : ℚ := r.ymax

/-- Modelled from the spec: `QgsRectangle::width`, the difference `xmax - xmin`. -/
def width (r : QgsRectangle) : ℚ := r.xmax - r.xmin

/-- Modelled from the spec: `QgsRectangle::height`, the difference `ymax - ymin`. -/
def height (r : QgsRectangle) : ℚ := r.ymax - r.ymin

/-- Modelled from the spec: `QgsRectangle::isEmpty`. A rectangle is empty when it
has no interior: `xmax <= xmin` or `ymax <= ymin`. The default rectangle
`(0,0)-(0,0)` is empty (the viewport is "created with empty extent"), so is
every zero-area rectangle, and so is the minimal sentinel. -/
def isEmpty (r : QgsRectangle) : Bool :=
  decide (r.xmax ≤ r.xmin) || decide (r.ymax ≤ r.ymin)

/-- Modelled from the spec: `QgsRectangle::normalize`, which orders the two
coordinates of each axis. -/
def normalize (r : QgsRectangle) : QgsRectangle :=
  let r1 := if r.xmin > r.xmax then { r with xmin := r.xmax, xmax := r.xmin } else r
  if r1.ymin > r1.ymax then { r1 with ymin := r1.ymax, ymax := r1.ymin } else r1

/-- Modelled from the spec: `QgsRectangle::set(xmin, ymin, xmax, ymax)`: all four
coordinates are overwritten and the rectangle is normalized (line 401 of the
source: "QgsRectangle normalizes the rectangle upon construction"). The previous
value of the receiver plays no role. -/
def set (xmin ymin xmax ymax : ℚ) : QgsRectangle :=
  normalize ⟨xmin, ymin, xmax, ymax⟩

/-- Modelled from the spec: the largest finite `double`,
`std::numeric_limits<double>::max() = 2^1024 - 2^971`. -/
def DBL_MAX : ℚ := 2 ^ 1024 - 2 ^ 971

/-- Modelled from the spec: `QgsRectangle::setMinimal`, the "empty/minimal sentinel
rectangle (one that unions to anything)": minima at `+DBL_MAX`, maxima at
`-DBL_MAX`. -/
def setMinimal : QgsRectangle := ⟨DBL_MAX, DBL_MAX, -DBL_MAX, -DBL_MAX⟩

/-- Modelled from the spec: `QgsRectangle::unionRect`, which widens the receiver so
that it also covers `r`, one bound at a time. -/
def unionRect (a r : QgsRectangle) : QgsRectangle :=
  let a1 := if r.xMinimum < a.xMinimum then { a with xmin := r.xMinimum } else a
  let a2 := if r.xMaximum > a1.xMaximum then { a1 with xmax := r.xMaximum } else a1
  let a3 := if r.yMinimum < a2.yMinimum then { a2 with ymin := r.yMinimum } else a2
  if r.yMaximum > a3.yMaximum then { a3 with ymax := r.yMaximum } else a3

end QgsRectangle

/-- A point `(x, y)` (`QgsPoint`). -/
structure QgsPoint where
  x : ℚ
  y : ℚ
deriving DecidableEq

/-- The output size, a pair of signed integers (`QSize`). -/
structure QSize where
  width : Int
  height : Int
deriving DecidableEq

/-- The map unit enumeration `QGis::UnitType`. -/
inductive UnitType where
  | Meters
  | Feet
  | Degrees
  | UnknownUnit
deriving DecidableEq

/-- A coordinate reference system, known here by its authority identifier
(`authid()`), the only thing the file asks of it. -/
structure QgsCoordinateReferenceSystem where
  authid : String
deriving DecidableEq

/-- The constructor argument `( GEOCRS_ID, InternalCrsId )`, WGS 84. -/
def QgsCoordinateReferenceSystem.wgs84 : QgsCoordinateReferenceSystem := ⟨"EPSG:4326"⟩

/-- The state of the scale calculator member: its own DPI and its map units. -/
structure QgsScaleCalculator where
  mDpi : ℚ
  mMapUnits : UnitType
deriving DecidableEq

/-- The default-constructed scale calculator (`dpi = 0`, `Meters`). -/
def QgsScaleCalculator.default : QgsScaleCalculator := ⟨0, UnitType.Meters⟩

def QgsScaleCalculator.setDpi (c : QgsScaleCalculator) (dpi : ℚ) : QgsScaleCalculator :=
  { c with mDpi := dpi }

def QgsScaleCalculator.setMapUnits (c : QgsScaleCalculator) (u : UnitType) :
    QgsScaleCalculator :=
  { c with mMapUnits := u }

def QgsScaleCalculator.mapUnits (c : QgsScaleCalculator) : UnitType := c.mMapUnits

/-- The scale formula `QgsScaleCalculator::calculate( extent, canvasWidth )` is an
external collaborator: a function of the calculator state, the visible extent
and the output width. -/
abbrev ScaleFormula := QgsScaleCalculator → QgsRectangle → Int → ℚ

/-- The four constructor arguments of `QgsMapToPixel`:
`( mapUnitsPerPixel, ymax, ymin, xmin )`. -/
structure QgsMapToPixel where
  mMapUnitsPerPixel : ℚ
  yMax : ℚ
  yMin : ℚ
  xMin : ℚ
deriving DecidableEq

/-- The default-constructed pixel transform. -/
def QgsMapToPixel.default : QgsMapToPixel := ⟨0, 0, 0, 0⟩

/-- A colour, as its RGB value. -/
structure QColor where
  rgb : Nat
deriving DecidableEq

def QColor.white : QColor := ⟨0xffffff⟩
def QColor.yellow : QColor := ⟨0xffff00⟩

/-- Rendering flags are a bit set (`QFlags<Flag>`). -/
abbrev Flags := Nat

def Antialiasing : Flags := 0x01
def DrawEditingInfo : Flags := 0x02
def ForceVectorOutput : Flags := 0x04
def UseAdvancedEffects : Flags := 0x08
def DrawLabeling : Flags := 0x10

/-! ## The viewport state -/

/-- The data members of `QgsMapSettings`. The first group are the inputs, the
second group the values `updateDerived` computes. -/
structure QgsMapSettings where
  mDpi : Int
  mSize : QSize
  mExtent : QgsRectangle
  mLayers : List String
  mProjectionsEnabled : Bool
  mDestCRS : QgsCoordinateReferenceSystem
  mBackgroundColor : QColor
  mSelectionColor : QColor
  mFlags : Flags
  mScaleCalculator : QgsScaleCalculator
  mValid : Bool
  mVisibleExtent : QgsRectangle
  mMapUnitsPerPixel : ℚ
  mScale : ℚ
  mMapToPixel : QgsMapToPixel
deriving DecidableEq

namespace QgsMapSettings

/-- The constant `minProportion` of `updateDerived` (line 80). -/
def minProportion : ℚ := 1 / 10 ^ 12

/-- Member `QgsMapSettings::updateDerived` (lines 46-136). Each early `return` of the
source is a branch that only clears `mValid`. Read over exact rationals no divisor
of an executed division vanishes (the means are positive when the guard is
entered, the output dimensions are non-zero past line 95); in `double`s a mean can
underflow to zero, see `Machine.QgsMapSettings.updateDerived`. -/
def updateDerived (calculate : ScaleFormula) (s : QgsMapSettings) : QgsMapSettings :=
  let extent := s.mExtent
  if extent.isEmpty then
    { s with mValid := false }
  else
    let tooSmall : Bool :=
      if extent.width > 0 ∧ extent.height > 0 ∧ extent.width < 1 ∧ extent.height < 1 then
        let xMean := (|extent.xMinimum| + |extent.xMaximum|) * (1 / 2)
        let yMean := (|extent.yMinimum| + |extent.yMaximum|) * (1 / 2)
        let xRange := extent.width / xMean
        let yRange := extent.height / yMean
        decide (xRange < minProportion ∨ yRange < minProportion)
      else
        false
    if tooSmall then
      { s with mValid := false }
    else
      let myHeight : ℚ := s.mSize.height
      let myWidth : ℚ := s.mSize.width
      if myWidth = 0 ∨ myHeight = 0 then
        { s with mValid := false }
      else
        let mapUnitsPerPixelY := s.mExtent.height / myHeight
        let mapUnitsPerPixelX := s.mExtent.width / myWidth
        let mupp :=
          if mapUnitsPerPixelY > mapUnitsPerPixelX then mapUnitsPerPixelY
          else mapUnitsPerPixelX
        let dxmin := s.mExtent.xMinimum
        let dxmax := s.mExtent.xMaximum
        let dymin := s.mExtent.yMinimum
        let dymax := s.mExtent.yMaximum
        let visible :=
          if mapUnitsPerPixelY > mapUnitsPerPixelX then
            let whitespace := ((myWidth * mupp) - s.mExtent.width) * (1 / 2)
            QgsRectangle.set (dxmin - whitespace) dymin (dxmax + whitespace) dymax
          else
            let whitespace := ((myHeight * mupp) - s.mExtent.height) * (1 / 2)
            QgsRectangle.set dxmin (dymin - whitespace) dxmax (dymax + whitespace)
        let calculator := s.mScaleCalculator.setDpi s.mDpi
        let scale := calculate calculator visible s.mSize.width
        { s with
          mMapUnitsPerPixel := mupp
          mVisibleExtent := visible
          mScaleCalculator := calculator
          mScale := scale
          mMapToPixel := ⟨mupp, s.mSize.height, visible.yMinimum, visible.xMinimum⟩
          mValid := true }

/-! ### Readers -/

def extent (s : QgsMapSettings) : QgsRectangle := s.mExtent
def outputSize (s : QgsMapSettings) : QSize := s.mSize
def outputDpi (s : QgsMapSettings) : Int := s.mDpi
def layers (s : QgsMapSettings) : List String := s.mLayers
def hasCrsTransformEnabled (s : QgsMapSettings) : Bool := s.mProjectionsEnabled
def destinationCrs (s : QgsMapSettings) : QgsCoordinateReferenceSystem := s.mDestCRS
def flags (s : QgsMapSettings) : Flags := s.mFlags
def testFlag (s : QgsMapSettings) (flag : Flags) : Bool := s.mFlags &&& flag == flag && (flag != 0 || s.mFlags == 0)
def mapUnits (s : QgsMapSettings) : UnitType := s.mScaleCalculator.mapUnits
def hasValidSettings (s : QgsMapSettings) : Bool := s.mValid
def visibleExtent (s : QgsMapSettings) : QgsRectangle := s.mVisibleExtent
def mapUnitsPerPixel (s : QgsMapSettings) : ℚ := s.mMapUnitsPerPixel
def scale (s : QgsMapSettings) : ℚ := s.mScale

/-! ### Mutators -/

/-- Member `setExtent` (lines 38-43). -/
def setExtent (calculate : ScaleFormula) (s : QgsMapSettings) (extent : QgsRectangle) :
    QgsMapSettings :=
  updateDerived calculate { s with mExtent := extent }

/-- Member `setOutputSize` (lines 144-149). -/
def setOutputSize (calculate : ScaleFormula) (s : QgsMapSettings) (size : QSize) :
    QgsMapSettings :=
  updateDerived calculate { s with mSize := size }

/-- Member `setOutputDpi` (lines 156-161). -/
def setOutputDpi (calculate : ScaleFormula) (s : QgsMapSettings) (dpi : Int) :
    QgsMapSettings :=
  updateDerived calculate { s with mDpi := dpi }

/-- Member `setLayers` (lines 169-172): assigns the list, nothing else. -/
def setLayers (s : QgsMapSettings) (layers : List String) : QgsMapSettings :=
  { s with mLayers := layers }

/-- Member `setProjectionsEnabled` (lines 174-177): assigns the flag, nothing else. -/
def setProjectionsEnabled (s : QgsMapSettings) (enabled : Bool) : QgsMapSettings :=
  { s with mProjectionsEnabled := enabled }

/-- Member `setDestinationCrs` (lines 185-188): assigns `mDestCRS`, nothing else. -/
def setDestinationCrs (s : QgsMapSettings) (crs : QgsCoordinateReferenceSystem) :
    QgsMapSettings :=
  { s with mDestCRS := crs }

/-- Member `setMapUnits` (lines 196-202). -/
def setMapUnits (calculate : ScaleFormula) (s : QgsMapSettings) (u : UnitType) :
    QgsMapSettings :=
  updateDerived calculate { s with mScaleCalculator := s.mScaleCalculator.setMapUnits u }

/-- Member `setFlags` (lines 204-207). -/
def setFlags (s : QgsMapSettings) (flags : Flags) : QgsMapSettings :=
  { s with mFlags := flags }

/-- Member `setFlag` (lines 209-215); `mFlags & ~flag` on 32-bit flags. -/
def setFlag (s : QgsMapSettings) (flag : Flags) (isOn : Bool) : QgsMapSettings :=
  if isOn then { s with mFlags := s.mFlags ||| flag }
  else { s with mFlags := s.mFlags &&& ((2 ^ 32 - 1) ^^^ flag) }

/-- Member `readXML` (lines 467-488). The four values parsed from the document node are
the arguments; the body is the four setter calls in the order of the source. -/
def readXML (calculate : ScaleFormula) (s : QgsMapSettings) (units : UnitType)
    (projections : Bool) (srs : QgsCoordinateReferenceSystem) (aoi : QgsRectangle) :
    QgsMapSettings :=
  let s1 := setMapUnits calculate s units
  let s2 := setProjectionsEnabled s1 projections
  let s3 := setDestinationCrs s2 srs
  setExtent calculate s3 aoi

/-- The constructor (lines 16-30). The members without an initializer
(`mValid`, `mMapUnitsPerPixel`, `mScale`) start with indeterminate values, which
are the three last arguments. -/
def new (calculate : ScaleFormula) (valid0 : Bool) (mupp0 scale0 : ℚ) : QgsMapSettings :=
  let s0 : QgsMapSettings :=
    { mDpi := 96
      mSize := ⟨0, 0⟩
      mExtent := QgsRectangle.default
      mLayers := []
      mProjectionsEnabled := false
      mDestCRS := QgsCoordinateReferenceSystem.wgs84
      mBackgroundColor := QColor.white
      mSelectionColor := QColor.yellow
      mFlags := Antialiasing ||| UseAdvancedEffects ||| DrawLabeling
      mScaleCalculator := QgsScaleCalculator.default
      mValid := valid0
      mVisibleExtent := QgsRectangle.default
      mMapUnitsPerPixel := mupp0
      mScale := scale0
      mMapToPixel := QgsMapToPixel.default }
  setMapUnits calculate (updateDerived calculate s0) UnitType.Degrees

end QgsMapSettings

/-! ## Coordinate routing and full extent: collaborators -/

/-- The direction argument of a coordinate transform. -/
inductive TransformDirection where
  | ForwardTransform
  | ReverseTransform
deriving DecidableEq

/-- Modelled from the spec: the transform handle of the external cache
(`QgsCoordinateTransform`), with "forward/reverse point and bounding-box transform
operations, possibly failing per call". The result `none` stands for a thrown
`QgsCsException`. -/
structure QgsCoordinateTransform where
  transformBoundingBox : QgsRectangle → TransformDirection → Option QgsRectangle
  transformPoint : QgsPoint → TransformDirection → Option QgsPoint
  transformRect : QgsRectangle → TransformDirection → Option QgsRectangle

/-- Modelled from the spec: the process-wide transform cache,
`lookup(sourceCRS, destCRS) -> TransformHandle`, keyed by the two authority
identifiers. -/
abbrev QgsCoordinateTransformCache := String → String → QgsCoordinateTransform

/-- Modelled from the spec: what the file reads of a resolved source (`QgsMapLayer`):
its name, its native extent and its native CRS. -/
structure QgsMapLayer where
  name : String
  extent : QgsRectangle
  crs : QgsCoordinateReferenceSystem
deriving DecidableEq

/-- Modelled from the spec: the source registry, `resolve(id) -> (nativeExtent,
nativeCRS)` or "not found" (`QgsMapLayerRegistry::mapLayer`, `none` for `NULL`). -/
abbrev QgsMapLayerRegistry := String → Option QgsMapLayer

namespace QgsMapSettings

/-! ### Coordinate routing -/

/-- Member `coordTransform` (lines 257-264) for a non-null layer. For a null layer
the source returns a null pointer, which every caller in the file dereferences;
layers are therefore non-null throughout. -/
def coordTransform (cache : QgsCoordinateTransformCache) (s : QgsMapSettings)
    (layer : QgsMapLayer) : QgsCoordinateTransform :=
  cache layer.crs.authid s.mDestCRS.authid

/-- Member `layerExtentToOutputExtent` (lines 268-288). A caught exception leaves
`extent` as it was. -/
def layerExtentToOutputExtent (cache : QgsCoordinateTransformCache) (s : QgsMapSettings)
    (theLayer : QgsMapLayer) (extent : QgsRectangle) : QgsRectangle :=
  if s.hasCrsTransformEnabled then
    match (coordTransform cache s theLayer).transformBoundingBox extent
        TransformDirection.ForwardTransform with
    | some transformed => transformed
    | none => extent
  else
    extent

/-- Member `outputExtentToLayerExtent` (lines 291-311). -/
def outputExtentToLayerExtent (cache : QgsCoordinateTransformCache) (s : QgsMapSettings)
    (theLayer : QgsMapLayer) (extent : QgsRectangle) : QgsRectangle :=
  if s.hasCrsTransformEnabled then
    match (coordTransform cache s theLayer).transformBoundingBox extent
        TransformDirection.ReverseTransform with
    | some transformed => transformed
    | none => extent
  else
    extent

/-- Member `layerToMapCoordinates` on a point (lines 314-332). -/
def layerToMapCoordinates (cache : QgsCoordinateTransformCache) (s : QgsMapSettings)
    (theLayer : QgsMapLayer) (point : QgsPoint) : QgsPoint :=
  if s.hasCrsTransformEnabled then
    match (coordTransform cache s theLayer).transformPoint point
        TransformDirection.ForwardTransform with
    | some transformed => transformed
    | none => point
  else
    point

/-- Member `layerToMapCoordinates` on a rectangle (lines 335-353). -/
def layerToMapCoordinatesRect (cache : QgsCoordinateTransformCache) (s : QgsMapSettings)
    (theLayer : QgsMapLayer) (rect : QgsRectangle) : QgsRectangle :=
  if s.hasCrsTransformEnabled then
    match (coordTransform cache s theLayer).transformRect rect
        TransformDirection.ForwardTransform with
    | some transformed => transformed
    | none => rect
  else
    rect

/-- Member `mapToLayerCoordinates` on a point (lines 356-374). -/
def mapToLayerCoordinates (cache : QgsCoordinateTransformCache) (s : QgsMapSettings)
    (theLayer : QgsMapLayer) (point : QgsPoint) : QgsPoint :=
  if s.hasCrsTransformEnabled then
    match (coordTransform cache s theLayer).transformPoint point
        TransformDirection.ReverseTransform with
    | some transformed => transformed
    | none => point
  else
    point

/-- Member `mapToLayerCoordinates` on a rectangle (lines 377-391). -/
def mapToLayerCoordinatesRect (cache : QgsCoordinateTransformCache) (s : QgsMapSettings)
    (theLayer : QgsMapLayer) (rect : QgsRectangle) : QgsRectangle :=
  if s.hasCrsTransformEnabled then
    match (coordTransform cache s theLayer).transformRect rect
        TransformDirection.ReverseTransform with
    | some transformed => transformed
    | none => rect
  else
    rect

/-! ### Full extent -/

/-- One turn of the `while` loop of `fullExtent` (lines 409-436): the running
rectangle after the layer identifier `layerId` has been handled. -/
def fullExtentStep (registry : QgsMapLayerRegistry) (cache : QgsCoordinateTransformCache)
    (s : QgsMapSettings) (fullExtent : QgsRectangle) (layerId : String) : QgsRectangle :=
  match registry layerId with
  | none => fullExtent
  | some lyr =>
    if lyr.extent.isEmpty then
      fullExtent
    else
      let extent := layerExtentToOutputExtent cache s lyr lyr.extent
      fullExtent.unionRect extent

/-- The constant `padFactor` of `fullExtent` (line 451). -/
def padFactor : ℚ := 1 / 10 ^ 8

/-- The tail of `fullExtent` (lines 438-460): what is returned for the rectangle the
loop has produced. -/
def fullExtentFallback (fullExtent : QgsRectangle) : QgsRectangle :=
  if fullExtent.width = 0 ∨ fullExtent.height = 0 then
    if fullExtent.xMinimum = 0 ∧ fullExtent.xMaximum = 0 ∧
        fullExtent.yMinimum = 0 ∧ fullExtent.yMaximum = 0 then
      QgsRectangle.set (-1) (-1) 1 1
    else
      let widthPad := fullExtent.xMinimum * padFactor
      let heightPad := fullExtent.yMinimum * padFactor
      let xmin := fullExtent.xMinimum - widthPad
      let xmax := fullExtent.xMaximum + widthPad
      let ymin := fullExtent.yMinimum - heightPad
      let ymax := fullExtent.yMaximum + heightPad
      QgsRectangle.set xmin ymin xmax ymax
  else
    fullExtent

/-- Member `fullExtent` (lines 395-464): the loop over `mLayers` starting from the
minimal rectangle, then the fallback for a zero width or height. -/
def fullExtent (registry : QgsMapLayerRegistry) (cache : QgsCoordinateTransformCache)
    (s : QgsMapSettings) : QgsRectangle :=
  fullExtentFallback
    (s.mLayers.foldl (fullExtentStep registry cache s) QgsRectangle.setMinimal)

end QgsMapSettings

/-! ## Reachable states -/

/-- The states a caller can observe: the constructed object, and whatever a
public mutator makes of a reachable state. -/
inductive Reachable (calculate : ScaleFormula) : QgsMapSettings → Prop where
  | new (valid0 : Bool) (mupp0 scale0 : ℚ) :
      Reachable calculate (QgsMapSettings.new calculate valid0 mupp0 scale0)
  | setExtent {s : QgsMapSettings} (r : QgsRectangle) :
      Reachable calculate s → Reachable calculate (s.setExtent calculate r)
  | setOutputSize {s : QgsMapSettings} (size : QSize) :
      Reachable calculate s → Reachable calculate (s.setOutputSize calculate size)
  | setOutputDpi {s : QgsMapSettings} (dpi : Int) :
      Reachable calculate s → Reachable calculate (s.setOutputDpi calculate dpi)
  | setMapUnits {s : QgsMapSettings} (u : UnitType) :
      Reachable calculate s → Reachable calculate (s.setMapUnits calculate u)
  | setDestinationCrs {s : QgsMapSettings} (crs : QgsCoordinateReferenceSystem) :
      Reachable calculate s → Reachable calculate (s.setDestinationCrs crs)
  | setProjectionsEnabled {s : QgsMapSettings} (enabled : Bool) :
      Reachable calculate s → Reachable calculate (s.setProjectionsEnabled enabled)
  | setLayers {s : QgsMapSettings} (layers : List String) :
      Reachable calculate s → Reachable calculate (s.setLayers layers)
  | setFlags {s : QgsMapSettings} (flags : Flags) :
      Reachable calculate s → Reachable calculate (s.setFlags flags)
  | setFlag {s : QgsMapSettings} (flag : Flags) (isOn : Bool) :
      Reachable calculate s → Reachable calculate (s.setFlag flag isOn)
  | readXML {s : QgsMapSettings} (units : UnitType) (projections : Bool)
      (srs : QgsCoordinateReferenceSystem) (aoi : QgsRectangle) :
      Reachable calculate s →
      Reachable calculate (s.readXML calculate units projections srs aoi)

/-! ## The derivation as a function of the inputs, and sample data -/

namespace QgsMapSettings

/-- The condition under which `updateDerived` reaches line 135: none of the three
early returns is taken. -/
def passesGuards (s : QgsMapSettings) : Prop :=
  s.mExtent.isEmpty = false ∧
  ¬ ((s.mExtent.width > 0 ∧ s.mExtent.height > 0 ∧ s.mExtent.width < 1 ∧
        s.mExtent.height < 1) ∧
      (s.mExtent.width / ((|s.mExtent.xMinimum| + |s.mExtent.xMaximum|) * (1 / 2))
          < minProportion ∨
        s.mExtent.height / ((|s.mExtent.yMinimum| + |s.mExtent.yMaximum|) * (1 / 2))
          < minProportion)) ∧
  ((s.mSize.width : ℚ) ≠ 0 ∧ (s.mSize.height : ℚ) ≠ 0)

instance (s : QgsMapSettings) : Decidable (passesGuards s) := by
  unfold passesGuards; infer_instance

/-- Lines 98-100 read as a function of the current extent and output size alone:
the larger of the two per-axis ratios. -/
def derivedMapUnitsPerPixel (extent : QgsRectangle) (size : QSize) : ℚ :=
  if extent.height / (size.height : ℚ) > extent.width / (size.width : ℚ) then
    extent.height / (size.height : ℚ)
  else
    extent.width / (size.width : ℚ)

/-- Lines 103-119 read as a function of the current extent and output size alone:
the extent padded on one axis. -/
def derivedVisibleExtent (extent : QgsRectangle) (size : QSize) : QgsRectangle :=
  if extent.height / (size.height : ℚ) > extent.width / (size.width : ℚ) then
    QgsRectangle.set
      (extent.xMinimum -
        (((size.width : ℚ) * derivedMapUnitsPerPixel extent size) - extent.width) * (1 / 2))
      extent.yMinimum
      (extent.xMaximum +
        (((size.width : ℚ) * derivedMapUnitsPerPixel extent size) - extent.width) * (1 / 2))
      extent.yMaximum
  else
    QgsRectangle.set
      extent.xMinimum
      (extent.yMinimum -
        (((size.height : ℚ) * derivedMapUnitsPerPixel extent size) - extent.height) * (1 / 2))
      extent.xMaximum
      (extent.yMaximum +
        (((size.height : ℚ) * derivedMapUnitsPerPixel extent size) - extent.height) * (1 / 2))

/-- A state is settled when re-deriving it changes nothing: every derived member
already holds the value `updateDerived` computes from the current inputs. -/
def Settled (calculate : ScaleFormula) (s : QgsMapSettings) : Prop :=
  updateDerived calculate s = s

/-- The four inputs re-derivation never reads, replaced together. -/
def reframe (s : QgsMapSettings) (layers : List String) (enabled : Bool)
    (crs : QgsCoordinateReferenceSystem) (flags : Flags) : QgsMapSettings :=
  { s with mLayers := layers, mProjectionsEnabled := enabled, mDestCRS := crs, mFlags := flags }

/-- A concrete scale formula for the worked examples: inches per metre times the
extent width, over the output width in inches (zero when that is undefined). -/
def sampleScale : ScaleFormula := fun c visible canvasWidth =>
  if canvasWidth = 0 ∨ c.mDpi = 0 then 0
  else visible.width * (393700787 / 10000000) / ((canvasWidth : ℚ) / c.mDpi)

/-- A freshly constructed object given the extent `(0,0)-(4,2)` and a 100 x 100
output. -/
def sampleState : QgsMapSettings :=
  ((QgsMapSettings.new sampleScale false 0 0).setExtent sampleScale ⟨0, 0, 4, 2⟩).setOutputSize
    sampleScale ⟨100, 100⟩

/-- The sample extent `(0,0)-(4,2)` on an output of `-100 x -100`: a size the
zero test of line 91 lets through. -/
def negativeSizeState : QgsMapSettings :=
  ((QgsMapSettings.new sampleScale false 0 0).setExtent sampleScale ⟨0, 0, 4, 2⟩).setOutputSize
    sampleScale ⟨-100, -100⟩

/-- An extent of width and height `1e-13` centred at `(1e6, 1e6)`. -/
def tinyExtent : QgsRectangle :=
  ⟨10 ^ 6 - 1 / (2 * 10 ^ 13), 10 ^ 6 - 1 / (2 * 10 ^ 13),
   10 ^ 6 + 1 / (2 * 10 ^ 13), 10 ^ 6 + 1 / (2 * 10 ^ 13)⟩

/-- The sample state asked to show `tinyExtent`. -/
def tinyState : QgsMapSettings := sampleState.setExtent sampleScale tinyExtent

/-- A transform cache whose every transform succeeds and changes nothing. -/
def identityCache : QgsCoordinateTransformCache := fun _ _ =>
  ⟨fun r _ => some r, fun pt _ => some pt, fun r _ => some r⟩

/-- A registry with two point sources: `"origin"`, whose native extent is the single
point `(0,0)`, and `"hundred"`, whose native extent is the single point
`(100,100)`. No other identifier resolves. -/
def pointRegistry : QgsMapLayerRegistry := fun layerId =>
  if layerId = "origin" then some ⟨"origin", ⟨0, 0, 0, 0⟩, QgsCoordinateReferenceSystem.wgs84⟩
  else if layerId = "hundred" then
    some ⟨"hundred", ⟨100, 100, 100, 100⟩, QgsCoordinateReferenceSystem.wgs84⟩
  else none

/-- The sample state with the layer list `["origin", "origin"]`. -/
def originLayersState : QgsMapSettings := sampleState.setLayers ["origin", "origin"]

/-- The sample state with the layer list `["hundred"]`. -/
def hundredLayerState : QgsMapSettings := sampleState.setLayers ["hundred"]

/-- A source in another CRS, for the routing examples. -/
def sampleLayer : QgsMapLayer := ⟨"roads", ⟨0, 0, 10, 10⟩, ⟨"EPSG:3857"⟩⟩

/-- A transform cache whose forward transforms succeed (a shift by `(10, 20)`) and
whose reverse transforms all throw. -/
def oneWayCache : QgsCoordinateTransformCache := fun _ _ =>
  ⟨fun r d =>
      match d with
      | TransformDirection.ForwardTransform =>
        some ⟨r.xmin + 10, r.ymin + 20, r.xmax + 10, r.ymax + 20⟩
      | TransformDirection.ReverseTransform => none,
   fun pt d =>
      match d with
      | TransformDirection.ForwardTransform => some ⟨pt.x + 10, pt.y + 20⟩
      | TransformDirection.ReverseTransform => none,
   fun r d =>
      match d with
      | TransformDirection.ForwardTransform =>
        some ⟨r.xmin + 10, r.ymin + 20, r.xmax + 10, r.ymax + 20⟩
      | TransformDirection.ReverseTransform => none⟩

/-- The sample state with projections switched on. -/
def projectedState : QgsMapSettings := sampleState.setProjectionsEnabled true

/-- Whether the loop of `fullExtent` unions anything for an identifier: it resolves
(line 412) and the native extent of the source is not empty (line 421). -/
def contributes (registry : QgsMapLayerRegistry) (layerId : String) : Bool :=
  match registry layerId with
  | none => false
  | some lyr => !lyr.extent.isEmpty

/-- A registry with two sources that have an area, `"a"` on `(0,0)-(1,1)` and `"b"`
on `(2,3)-(5,4)`, and a source `"void"` whose native extent is empty. No other
identifier resolves. -/
def boxRegistry : QgsMapLayerRegistry := fun layerId =>
  if layerId = "a" then some ⟨"a", ⟨0, 0, 1, 1⟩, QgsCoordinateReferenceSystem.wgs84⟩
  else if layerId = "b" then some ⟨"b", ⟨2, 3, 5, 4⟩, QgsCoordinateReferenceSystem.wgs84⟩
  else if layerId = "void" then
    some ⟨"void", ⟨0, 0, 0, 0⟩, QgsCoordinateReferenceSystem.wgs84⟩
  else none

/-- The sample state with the layer list `["a", "ghost", "void", "b"]`. -/
def mixedLayersState : QgsMapSettings := sampleState.setLayers ["a", "ghost", "void", "b"]

/-- A transform cache whose bounding-box transform flattens every rectangle onto the
horizontal segment from `(-100, 5)` to `(100, 5)`. -/
def flatCache : QgsCoordinateTransformCache := fun _ _ =>
  ⟨fun _ _ => some ⟨-100, 5, 100, 5⟩, fun pt _ => some pt, fun r _ => some r⟩

/-- The sample state with the layer list `["a"]` and projections switched on. -/
def flatState : QgsMapSettings :=
  (sampleState.setLayers ["a"]).setProjectionsEnabled true

end QgsMapSettings

/-! ## Binary64 arithmetic

The C++ type `double` as IEEE 754 binary64. Every operation is rounded on its own
to the nearest `double`, ties to even (no extended precision, no fused
multiply-add). -/

/-- The power `2 ^ k` for an integer exponent. -/
def pow2 (k : Int) : ℚ :=
  if 0 ≤ k then (2 : ℚ) ^ k.toNat else 1 / (2 : ℚ) ^ (-k).toNat

/-- The number of binary digits of `n`, by halving at most `fuel` times. -/
def bitLength : Nat → Nat → Nat
  | 0, _ => 0
  | fuel + 1, n => if n = 0 then 0 else bitLength fuel (n / 2) + 1

/-- The largest `k` with `2 ^ k ≤ n`, for a positive `n`. -/
def natLog2 (n : Nat) : Nat := bitLength n n - 1

/-- The largest `e` with `2 ^ e ≤ a`, for a positive rational `a`: the quotient of
the numerator by the denominator lies within a factor 2 of `2 ^ e0`. -/
def floorLog2 (a : ℚ) : Int :=
  let e0 : Int := (natLog2 a.num.natAbs : Int) - (natLog2 a.den : Int)
  if pow2 e0 ≤ a then e0 else e0 - 1

/-- A value of the C++ type `double` (IEEE 754 binary64): a finite number, an
infinity or a NaN. The two zeros are one value `fin 0`; the sign of a zero can
only show as the sign of an infinity obtained by dividing by it. -/
inductive Dbl where
  | fin (q : ℚ)
  | inf (negative : Bool)
  | nan
deriving DecidableEq

namespace Dbl

/-- The largest finite `double`, `2^1024 - 2^971`. -/
def maxFinite : ℚ := 2 ^ 1024 - 2 ^ 971

/-- Rounding of an exact result to the nearest `double`, ties to the even
significand (the default IEEE 754 mode): 53 significant bits, exponents from
`-1022` (below which the spacing stays `2^-1074`, the subnormal range), and
`±inf` when the rounded magnitude exceeds `maxFinite`. -/
def round (q : ℚ) : Dbl :=
  if q = 0 then fin 0
  else
    let a := |q|
    let e := max (floorLog2 a) (-1022)
    let ulp := pow2 (e - 52)
    let n := a / ulp
    let fl := Rat.floor n
    let frac := n - fl
    let r : Int :=
      if frac < 1 / 2 then fl
      else if frac > 1 / 2 then fl + 1
      else if fl % 2 = 0 then fl else fl + 1
    let m := (r : ℚ) * ulp
    if m > maxFinite then inf (decide (q < 0))
    else fin (if q < 0 then -m else m)

/-- Conversion of an `int` to `double`. -/
def ofInt (n : Int) : Dbl := round n

/-- The `double` nearest to a decimal literal of the source. -/
def ofLiteral (q : ℚ) : Dbl := round q

def neg : Dbl → Dbl
  | fin a => fin (-a)
  | inf s => inf (!s)
  | nan => nan

def add : Dbl → Dbl → Dbl
  | fin a, fin b => round (a + b)
  | fin _, inf s => inf s
  | inf s, fin _ => inf s
  | inf s, inf t => if s = t then inf s else nan
  | _, _ => nan

def sub (a b : Dbl) : Dbl := add a (neg b)

def mul : Dbl → Dbl → Dbl
  | fin a, fin b => round (a * b)
  | fin a, inf s => if a = 0 then nan else inf (xor s (decide (a < 0)))
  | inf s, fin b => if b = 0 then nan else inf (xor s (decide (b < 0)))
  | inf s, inf t => inf (xor s t)
  | _, _ => nan

def div : Dbl → Dbl → Dbl
  | fin a, fin b =>
    if b = 0 then (if a = 0 then nan else inf (decide (a < 0))) else round (a / b)
  | fin _, inf _ => fin 0
  | inf s, fin b => inf (xor s (decide (b < 0)))
  | _, _ => nan

/-- The comparison `a < b` of two `double`s; false when either is a NaN. -/
def lt : Dbl → Dbl → Bool
  | fin a, fin b => decide (a < b)
  | fin _, inf s => !s
  | inf s, fin _ => s
  | inf s, inf t => s && !t
  | _, _ => false

/-- The comparison `a <= b` of two `double`s; false when either is a NaN. -/
def le : Dbl → Dbl → Bool
  | fin a, fin b => decide (a ≤ b)
  | fin _, inf s => !s
  | inf s, fin _ => s
  | inf s, inf t => s || !t
  | _, _ => false

def gt (a b : Dbl) : Bool := lt b a

/-- The template `qAbs`: `t >= 0 ? t : -t`. -/
def qAbs (t : Dbl) : Dbl := if le (fin 0) t then t else neg t

/-- The test `!d` of a `double`: true exactly for a zero. -/
def isZero (d : Dbl) : Bool := decide (d = fin 0)

end Dbl

/-! ## The viewport derivation in binary64 -/

namespace Machine

/-- Modelled from the spec: `QgsRectangle` with its four `double` coordinates. -/
structure QgsRectangle where
  xmin : Dbl
  ymin : Dbl
  xmax : Dbl
  ymax : Dbl
deriving DecidableEq

namespace QgsRectangle

/-- Modelled from the spec: the default-constructed rectangle, all zeros. -/
def default : QgsRectangle := ⟨Dbl.fin 0, Dbl.fin 0, Dbl.fin 0, Dbl.fin 0⟩

def xMinimum (r : QgsRectangle) : Dbl := r.xmin
def yMinimum (r : QgsRectangle) : Dbl := r.ymin
def xMaximum (r : QgsRectangle) : Dbl := r.xmax
def yMaximum (r : QgsRectangle) : Dbl := r.ymax

/-- Modelled from the spec: `width()`, the rounded difference `xmax - xmin`. -/
def width (r : QgsRectangle) : Dbl := Dbl.sub r.xmax r.xmin

/-- Modelled from the spec: `height()`, the rounded difference `ymax - ymin`. -/
def height (r : QgsRectangle) : Dbl := Dbl.sub r.ymax r.ymin

/-- Modelled from the spec: `isEmpty()`, `xmax <= xmin || ymax <= ymin`. -/
def isEmpty (r : QgsRectangle) : Bool := Dbl.le r.xmax r.xmin || Dbl.le r.ymax r.ymin

/-- Modelled from the spec: `normalize()`, which orders the two coordinates of each
axis. -/
def normalize (r : QgsRectangle) : QgsRectangle :=
  let r1 := if Dbl.gt r.xmin r.xmax then { r with xmin := r.xmax, xmax := r.xmin } else r
  if Dbl.gt r1.ymin r1.ymax then { r1 with ymin := r1.ymax, ymax := r1.ymin } else r1

/-- Modelled from the spec: `set(xmin, ymin, xmax, ymax)`, assignment followed by
`normalize()`. -/
def set (xmin ymin xmax ymax : Dbl) : QgsRectangle :=
  normalize ⟨xmin, ymin, xmax, ymax⟩

end QgsRectangle

/-- The state of the scale calculator member. -/
structure QgsScaleCalculator where
  mDpi : Dbl
  mMapUnits : UnitType
deriving DecidableEq

/-- The external scale formula, on `double`s. -/
abbrev ScaleFormula := QgsScaleCalculator → QgsRectangle → Int → Dbl

/-- The four constructor arguments of `QgsMapToPixel`. -/
structure QgsMapToPixel where
  mMapUnitsPerPixel : Dbl
  yMax : Dbl
  yMin : Dbl
  xMin : Dbl
deriving DecidableEq

/-- The members of `QgsMapSettings` that `updateDerived` reads or writes, the
numeric ones as `double`s. -/
structure QgsMapSettings where
  mDpi : Int
  mSize : QSize
  mExtent : QgsRectangle
  mScaleCalculator : QgsScaleCalculator
  mValid : Bool
  mVisibleExtent : QgsRectangle
  mMapUnitsPerPixel : Dbl
  mScale : Dbl
  mMapToPixel : QgsMapToPixel
deriving DecidableEq

namespace QgsMapSettings

/-- The constant `minProportion` (line 80): the `double` nearest to `1e-12`. -/
def minProportion : Dbl := Dbl.ofLiteral (1 / 10 ^ 12)

/-- Member `updateDerived` (lines 46-136), every arithmetic operation rounded to
`double` in the order the source writes them. -/
def updateDerived (calculate : ScaleFormula) (s : QgsMapSettings) : QgsMapSettings :=
  let extent := s.mExtent
  if extent.isEmpty then
    { s with mValid := false }
  else
    let tooSmall : Bool :=
      if Dbl.gt extent.width (Dbl.ofInt 0) && Dbl.gt extent.height (Dbl.ofInt 0) &&
          Dbl.lt extent.width (Dbl.ofInt 1) && Dbl.lt extent.height (Dbl.ofInt 1) then
        let xMean := Dbl.mul (Dbl.add (Dbl.qAbs extent.xMinimum) (Dbl.qAbs extent.xMaximum))
          (Dbl.ofLiteral (1 / 2))
        let yMean := Dbl.mul (Dbl.add (Dbl.qAbs extent.yMinimum) (Dbl.qAbs extent.yMaximum))
          (Dbl.ofLiteral (1 / 2))
        let xRange := Dbl.div extent.width xMean
        let yRange := Dbl.div extent.height yMean
        Dbl.lt xRange minProportion || Dbl.lt yRange minProportion
      else
        false
    if tooSmall then
      { s with mValid := false }
    else
      let myHeight : Dbl := Dbl.ofInt s.mSize.height
      let myWidth : Dbl := Dbl.ofInt s.mSize.width
      if myWidth.isZero || myHeight.isZero then
        { s with mValid := false }
      else
        let mapUnitsPerPixelY := Dbl.div s.mExtent.height myHeight
        let mapUnitsPerPixelX := Dbl.div s.mExtent.width myWidth
        let mupp :=
          if Dbl.gt mapUnitsPerPixelY mapUnitsPerPixelX then mapUnitsPerPixelY
          else mapUnitsPerPixelX
        let dxmin := s.mExtent.xMinimum
        let dxmax := s.mExtent.xMaximum
        let dymin := s.mExtent.yMinimum
        let dymax := s.mExtent.yMaximum
        let visible :=
          if Dbl.gt mapUnitsPerPixelY mapUnitsPerPixelX then
            let whitespace := Dbl.mul (Dbl.sub (Dbl.mul myWidth mupp) s.mExtent.width)
              (Dbl.ofLiteral (1 / 2))
            QgsRectangle.set (Dbl.sub dxmin whitespace) dymin (Dbl.add dxmax whitespace) dymax
          else
            let whitespace := Dbl.mul (Dbl.sub (Dbl.mul myHeight mupp) s.mExtent.height)
              (Dbl.ofLiteral (1 / 2))
            QgsRectangle.set dxmin (Dbl.sub dymin whitespace) dxmax (Dbl.add dymax whitespace)
        let calculator : QgsScaleCalculator := { s.mScaleCalculator with mDpi := Dbl.ofInt s.mDpi }
        let scale := calculate calculator visible s.mSize.width
        { s with
          mMapUnitsPerPixel := mupp
          mVisibleExtent := visible
          mScaleCalculator := calculator
          mScale := scale
          mMapToPixel := ⟨mupp, Dbl.ofInt s.mSize.height, visible.yMinimum, visible.xMinimum⟩
          mValid := true }

def extent (s : QgsMapSettings) : QgsRectangle := s.mExtent
def outputSize (s : QgsMapSettings) : QSize := s.mSize
def hasValidSettings (s : QgsMapSettings) : Bool := s.mValid
def visibleExtent (s : QgsMapSettings) : QgsRectangle := s.mVisibleExtent
def mapUnitsPerPixel (s : QgsMapSettings) : Dbl := s.mMapUnitsPerPixel

/-- Member `setExtent` (lines 38-43). -/
def setExtent (calculate : ScaleFormula) (s : QgsMapSettings) (extent : QgsRectangle) :
    QgsMapSettings :=
  updateDerived calculate { s with mExtent := extent }

/-- Member `setOutputSize` (lines 144-149). -/
def setOutputSize (calculate : ScaleFormula) (s : QgsMapSettings) (size : QSize) :
    QgsMapSettings :=
  updateDerived calculate { s with mSize := size }

/-- Member `setMapUnits` (lines 196-202). -/
def setMapUnits (calculate : ScaleFormula) (s : QgsMapSettings) (u : UnitType) :
    QgsMapSettings :=
  updateDerived calculate { s with mScaleCalculator := { s.mScaleCalculator with mMapUnits := u } }

/-- The constructor (lines 16-30); the members without an initializer start with
the indeterminate values given as arguments. -/
def new (calculate : ScaleFormula) (valid0 : Bool) (mupp0 scale0 : Dbl) : QgsMapSettings :=
  let s0 : QgsMapSettings :=
    { mDpi := 96
      mSize := ⟨0, 0⟩
      mExtent := QgsRectangle.default
      mScaleCalculator := ⟨Dbl.fin 0, UnitType.Meters⟩
      mValid := valid0
      mVisibleExtent := QgsRectangle.default
      mMapUnitsPerPixel := mupp0
      mScale := scale0
      mMapToPixel := ⟨Dbl.fin 0, Dbl.fin 0, Dbl.fin 0, Dbl.fin 0⟩ }
  setMapUnits calculate (updateDerived calculate s0) UnitType.Degrees

end QgsMapSettings

/-- A scale formula for the worked examples in `double`s; the scale is not looked
at there. -/
def sampleScale : ScaleFormula := fun _ _ _ => Dbl.fin 0

/-- A freshly constructed object given the extent `(x0,y0)-(x1,y1)`, each
coordinate the `double` nearest to the given decimal, and the output size
`w x h`. -/
def stateOf (x0 y0 x1 y1 : ℚ) (w h : Int) : QgsMapSettings :=
  ((QgsMapSettings.new sampleScale false (Dbl.fin 0) (Dbl.fin 0)).setExtent sampleScale
    ⟨Dbl.ofLiteral x0, Dbl.ofLiteral y0, Dbl.ofLiteral x1, Dbl.ofLiteral y1⟩).setOutputSize
    sampleScale ⟨w, h⟩

end Machine

namespace Dbl

/-- The number a finite `double` stands for (`0` for an infinity or a NaN). -/
def value : Dbl → ℚ
  | fin q => q
  | _ => 0

end Dbl

namespace Machine

/-- The extent `(0,0)-(1,1)` on a 5 x 6 output, in `double`s. -/
def unitSquareState : QgsMapSettings := stateOf 0 0 1 1 5 6

/-- The extent `(0.1,0.3)-(0.8,0.5)` on a 640 x 480 output, in `double`s. -/
def decimalState : QgsMapSettings := stateOf (1 / 10) (3 / 10) (8 / 10) (1 / 2) 640 480

/-- The extent from `(0,0)` to `(5e-324, 5e-324)`, the smallest positive `double`
`2^-1074`. -/
def subnormalExtent : QgsRectangle :=
  ⟨Dbl.fin 0, Dbl.fin 0, Dbl.fin (1 / 2 ^ 1074), Dbl.fin (1 / 2 ^ 1074)⟩

/-- The extent `subnormalExtent` on a 2 x 2 output. -/
def subnormalState : QgsMapSettings := stateOf 0 0 (1 / 2 ^ 1074) (1 / 2 ^ 1074) 2 2

end Machine

/-! ## Lemmas on the derivation -/

namespace QgsMapSettings

theorem updateDerived_of_not_passes (calculate : ScaleFormula) (s : QgsMapSettings)
    (h : ¬ passesGuards s) : updateDerived calculate s = { s with mValid := false } := by
  unfold passesGuards at h
  unfold updateDerived
  by_cases h1 : s.mExtent.isEmpty = true
  · simp [h1]
  · simp only [h1, Bool.false_eq_true, if_false]
    simp only [Bool.not_eq_true] at h1
    split_ifs with h2 h3 h4 h3 <;> first | rfl | (exfalso; apply h; simp_all)

theorem updateDerived_of_passes (calculate : ScaleFormula) (s : QgsMapSettings)
    (h : passesGuards s) :
    updateDerived calculate s =
      { s with
        mMapUnitsPerPixel := derivedMapUnitsPerPixel s.mExtent s.mSize
        mVisibleExtent := derivedVisibleExtent s.mExtent s.mSize
        mScaleCalculator := s.mScaleCalculator.setDpi s.mDpi
        mScale := calculate (s.mScaleCalculator.setDpi s.mDpi)
          (derivedVisibleExtent s.mExtent s.mSize) s.mSize.width
        mMapToPixel := ⟨derivedMapUnitsPerPixel s.mExtent s.mSize, s.mSize.height,
          (derivedVisibleExtent s.mExtent s.mSize).yMinimum,
          (derivedVisibleExtent s.mExtent s.mSize).xMinimum⟩
        mValid := true } := by
  obtain ⟨h1, h2, h3, h4⟩ := h
  unfold updateDerived derivedVisibleExtent derivedMapUnitsPerPixel
  simp only [h1, Bool.false_eq_true, if_false]
  have hsmall : (if s.mExtent.width > 0 ∧ s.mExtent.height > 0 ∧ s.mExtent.width < 1 ∧
        s.mExtent.height < 1 then
        decide (s.mExtent.width / ((|s.mExtent.xMinimum| + |s.mExtent.xMaximum|) * (1 / 2))
            < minProportion ∨
          s.mExtent.height / ((|s.mExtent.yMinimum| + |s.mExtent.yMaximum|) * (1 / 2))
            < minProportion)
      else false) = false := by
    split_ifs with hg
    · simpa using fun hx => h2 ⟨hg, hx⟩
    · rfl
  simp only [hsmall, Bool.false_eq_true, if_false]
  have hsz : ¬ ((s.mSize.width : ℚ) = 0 ∨ (s.mSize.height : ℚ) = 0) := by
    push_neg; exact ⟨h3, h4⟩
  simp only [hsz, if_false]

theorem updateDerived_valid_iff (calculate : ScaleFormula) (s : QgsMapSettings) :
    (updateDerived calculate s).mValid = true ↔ passesGuards s := by
  by_cases h : passesGuards s
  · simp [updateDerived_of_passes calculate s h, h]
  · simp [updateDerived_of_not_passes calculate s h, h]

theorem passesGuards_congr {s t : QgsMapSettings} (he : t.mExtent = s.mExtent)
    (hs : t.mSize = s.mSize) : passesGuards t ↔ passesGuards s := by
  unfold passesGuards; rw [he, hs]

/-- Re-deriving twice is re-deriving once. -/
theorem updateDerived_idem (calculate : ScaleFormula) (s : QgsMapSettings) :
    updateDerived calculate (updateDerived calculate s) = updateDerived calculate s := by
  by_cases h : passesGuards s
  · have h2 : passesGuards (updateDerived calculate s) := by
      rw [updateDerived_of_passes calculate s h]
      exact (passesGuards_congr rfl rfl).2 h
    rw [updateDerived_of_passes calculate _ h2, updateDerived_of_passes calculate s h]
    simp [QgsScaleCalculator.setDpi]
  · have h2 : ¬ passesGuards (updateDerived calculate s) := by
      rw [updateDerived_of_not_passes calculate s h]
      exact fun hp => h ((passesGuards_congr rfl rfl).1 hp)
    rw [updateDerived_of_not_passes calculate _ h2, updateDerived_of_not_passes calculate s h]

theorem settled_updateDerived (calculate : ScaleFormula) (s : QgsMapSettings) :
    Settled calculate (updateDerived calculate s) :=
  updateDerived_idem calculate s

/-- Re-derivation reads none of `mLayers`, `mProjectionsEnabled`, `mDestCRS`,
`mFlags`: replacing them commutes with it. -/
theorem updateDerived_frame (calculate : ScaleFormula) (s : QgsMapSettings)
    (layers : List String) (enabled : Bool) (crs : QgsCoordinateReferenceSystem)
    (flags : Flags) :
    updateDerived calculate (reframe s layers enabled crs flags) =
      reframe (updateDerived calculate s) layers enabled crs flags := by
  by_cases h : passesGuards s
  · have h2 : passesGuards (reframe s layers enabled crs flags) :=
      (passesGuards_congr rfl rfl).2 h
    rw [updateDerived_of_passes calculate _ h2, updateDerived_of_passes calculate s h]
    rfl
  · have h2 : ¬ passesGuards (reframe s layers enabled crs flags) :=
      fun hp => h ((passesGuards_congr rfl rfl).1 hp)
    rw [updateDerived_of_not_passes calculate _ h2, updateDerived_of_not_passes calculate s h]
    rfl

theorem settled_frame (calculate : ScaleFormula) (s : QgsMapSettings)
    (layers : List String) (enabled : Bool) (crs : QgsCoordinateReferenceSystem)
    (flags : Flags) (h : Settled calculate s) :
    Settled calculate (reframe s layers enabled crs flags) := by
  unfold Settled at *
  rw [updateDerived_frame, h]

/-- Every reachable state is settled. -/
theorem reachable_settled (calculate : ScaleFormula) (s : QgsMapSettings)
    (h : Reachable calculate s) : Settled calculate s := by
  induction h with
  | new valid0 mupp0 scale0 => exact settled_updateDerived calculate _
  | setExtent r _ _ => exact settled_updateDerived calculate _
  | setOutputSize size _ _ => exact settled_updateDerived calculate _
  | setOutputDpi dpi _ _ => exact settled_updateDerived calculate _
  | setMapUnits u _ _ => exact settled_updateDerived calculate _
  | @setDestinationCrs s crs _ ih =>
    exact settled_frame calculate s s.mLayers s.mProjectionsEnabled crs s.mFlags ih
  | @setProjectionsEnabled s enabled _ ih =>
    exact settled_frame calculate s s.mLayers enabled s.mDestCRS s.mFlags ih
  | @setLayers s layers _ ih =>
    exact settled_frame calculate s layers s.mProjectionsEnabled s.mDestCRS s.mFlags ih
  | @setFlags s flags _ ih =>
    exact settled_frame calculate s s.mLayers s.mProjectionsEnabled s.mDestCRS flags ih
  | @setFlag s flag isOn _ ih =>
    unfold setFlag
    split_ifs
    · exact settled_frame calculate s s.mLayers s.mProjectionsEnabled s.mDestCRS _ ih
    · exact settled_frame calculate s s.mLayers s.mProjectionsEnabled s.mDestCRS _ ih
  | readXML units projections srs aoi _ _ => exact settled_updateDerived calculate _

theorem updateDerived_mExtent (calculate : ScaleFormula) (s : QgsMapSettings) :
    (updateDerived calculate s).mExtent = s.mExtent := by
  by_cases h : passesGuards s
  · rw [updateDerived_of_passes calculate s h]
  · rw [updateDerived_of_not_passes calculate s h]

theorem updateDerived_mSize (calculate : ScaleFormula) (s : QgsMapSettings) :
    (updateDerived calculate s).mSize = s.mSize := by
  by_cases h : passesGuards s
  · rw [updateDerived_of_passes calculate s h]
  · rw [updateDerived_of_not_passes calculate s h]

theorem isEmpty_eq_false_iff (r : QgsRectangle) :
    r.isEmpty = false ↔ r.xmin < r.xmax ∧ r.ymin < r.ymax := by
  unfold QgsRectangle.isEmpty
  simp [not_le]

theorem set_of_le (a b c d : ℚ) (hx : a ≤ c) (hy : b ≤ d) :
    QgsRectangle.set a b c d = ⟨a, b, c, d⟩ := by
  unfold QgsRectangle.set QgsRectangle.normalize
  simp [not_lt.mpr hx, not_lt.mpr hy]

/-- The derivation when the y ratio is the larger one (positive output size,
non-empty extent): x is padded by a positive amount. -/
theorem derived_pad_x (extent : QgsRectangle) (size : QSize)
    (hw : 0 < size.width) (hne : extent.isEmpty = false)
    (hc : extent.height / (size.height : ℚ) > extent.width / (size.width : ℚ)) :
    derivedMapUnitsPerPixel extent size = extent.height / (size.height : ℚ) ∧
    0 < ((size.width : ℚ) * (extent.height / (size.height : ℚ)) - extent.width) * (1 / 2) ∧
    derivedVisibleExtent extent size =
      ⟨extent.xmin - ((size.width : ℚ) * (extent.height / (size.height : ℚ)) - extent.width)
          * (1 / 2),
        extent.ymin,
        extent.xmax + ((size.width : ℚ) * (extent.height / (size.height : ℚ)) - extent.width)
          * (1 / 2),
        extent.ymax⟩ := by
  have hwq : (0 : ℚ) < (size.width : ℚ) := by exact_mod_cast hw
  obtain ⟨hx, hy⟩ := (isEmpty_eq_false_iff extent).1 hne
  have hm : derivedMapUnitsPerPixel extent size = extent.height / (size.height : ℚ) := by
    unfold derivedMapUnitsPerPixel; rw [if_pos hc]
  have hpos : 0 < ((size.width : ℚ) * (extent.height / (size.height : ℚ)) - extent.width)
      * (1 / 2) := by
    have h1 : extent.width < extent.height / (size.height : ℚ) * (size.width : ℚ) :=
      (div_lt_iff₀ hwq).1 hc
    linarith
  refine ⟨hm, hpos, ?_⟩
  unfold derivedVisibleExtent
  rw [if_pos hc, hm]
  unfold QgsRectangle.xMinimum QgsRectangle.xMaximum QgsRectangle.yMinimum
    QgsRectangle.yMaximum
  exact set_of_le _ _ _ _ (by linarith) (le_of_lt hy)

/-- The derivation when the y ratio is not the larger one (positive output size,
non-empty extent): y is padded by a non-negative amount. -/
theorem derived_pad_y (extent : QgsRectangle) (size : QSize)
    (hh : 0 < size.height) (hne : extent.isEmpty = false)
    (hc : ¬ extent.height / (size.height : ℚ) > extent.width / (size.width : ℚ)) :
    derivedMapUnitsPerPixel extent size = extent.width / (size.width : ℚ) ∧
    0 ≤ ((size.height : ℚ) * (extent.width / (size.width : ℚ)) - extent.height) * (1 / 2) ∧
    derivedVisibleExtent extent size =
      ⟨extent.xmin,
        extent.ymin - ((size.height : ℚ) * (extent.width / (size.width : ℚ)) - extent.height)
          * (1 / 2),
        extent.xmax,
        extent.ymax + ((size.height : ℚ) * (extent.width / (size.width : ℚ)) - extent.height)
          * (1 / 2)⟩ := by
  have hhq : (0 : ℚ) < (size.height : ℚ) := by exact_mod_cast hh
  obtain ⟨hx, hy⟩ := (isEmpty_eq_false_iff extent).1 hne
  have hm : derivedMapUnitsPerPixel extent size = extent.width / (size.width : ℚ) := by
    unfold derivedMapUnitsPerPixel; rw [if_neg hc]
  have hpos : 0 ≤ ((size.height : ℚ) * (extent.width / (size.width : ℚ)) - extent.height)
      * (1 / 2) := by
    have h1 : extent.height ≤ extent.width / (size.width : ℚ) * (size.height : ℚ) :=
      (div_le_iff₀ hhq).1 (not_lt.1 hc)
    linarith
  refine ⟨hm, hpos, ?_⟩
  unfold derivedVisibleExtent
  rw [if_neg hc, hm]
  unfold QgsRectangle.xMinimum QgsRectangle.xMaximum QgsRectangle.yMinimum
    QgsRectangle.yMaximum
  exact set_of_le _ _ _ _ (le_of_lt hx) (by linarith)

/-- What a settled, valid state holds in its derived members. -/
theorem settled_valid_fields (calculate : ScaleFormula) (s : QgsMapSettings)
    (h : Settled calculate s) (hv : s.mValid = true) :
    passesGuards s ∧
    s.mMapUnitsPerPixel = derivedMapUnitsPerPixel s.mExtent s.mSize ∧
    s.mVisibleExtent = derivedVisibleExtent s.mExtent s.mSize := by
  unfold Settled at h
  have hp : passesGuards s := by
    rw [← updateDerived_valid_iff calculate s, h]; exact hv
  have e := updateDerived_of_passes calculate s hp
  rw [h] at e
  refine ⟨hp, ?_, ?_⟩
  · exact congrArg QgsMapSettings.mMapUnitsPerPixel e
  · exact congrArg QgsMapSettings.mVisibleExtent e

theorem updateDerived_valid_fields (calculate : ScaleFormula) (s : QgsMapSettings)
    (hv : (updateDerived calculate s).mValid = true) :
    passesGuards s ∧
    (updateDerived calculate s).mMapUnitsPerPixel = derivedMapUnitsPerPixel s.mExtent s.mSize ∧
    (updateDerived calculate s).mVisibleExtent = derivedVisibleExtent s.mExtent s.mSize := by
  have hp : passesGuards s := (updateDerived_valid_iff calculate s).1 hv
  refine ⟨hp, ?_, ?_⟩ <;> rw [updateDerived_of_passes calculate s hp]

/-- With a non-empty extent and a positive output size the derived extent
contains the extent it was derived from. -/
theorem derivedVisibleExtent_contains (extent : QgsRectangle) (size : QSize)
    (hw : 0 < size.width) (hh : 0 < size.height) (hne : extent.isEmpty = false) :
    (derivedVisibleExtent extent size).xmin ≤ extent.xmin ∧
    (derivedVisibleExtent extent size).ymin ≤ extent.ymin ∧
    extent.xmax ≤ (derivedVisibleExtent extent size).xmax ∧
    extent.ymax ≤ (derivedVisibleExtent extent size).ymax := by
  by_cases hc : extent.height / (size.height : ℚ) > extent.width / (size.width : ℚ)
  · obtain ⟨_, hpos, hvis⟩ := derived_pad_x extent size hw hne hc
    rw [hvis]
    refine ⟨?_, le_refl _, ?_, le_refl _⟩ <;> simp only <;> linarith
  · obtain ⟨_, hpos, hvis⟩ := derived_pad_y extent size hh hne hc
    rw [hvis]
    refine ⟨le_refl _, ?_, le_refl _, ?_⟩ <;> simp only <;> linarith

/-- With a non-empty extent and a positive output size, both axes of the derived
extent show exactly `derivedMapUnitsPerPixel` map units per pixel. -/
theorem derivedVisibleExtent_aspect (extent : QgsRectangle) (size : QSize)
    (hw : 0 < size.width) (hh : 0 < size.height) (hne : extent.isEmpty = false) :
    (derivedVisibleExtent extent size).width / (size.width : ℚ) =
      derivedMapUnitsPerPixel extent size ∧
    (derivedVisibleExtent extent size).height / (size.height : ℚ) =
      derivedMapUnitsPerPixel extent size := by
  have hwq : (size.width : ℚ) ≠ 0 := by exact_mod_cast ne_of_gt hw
  have hhq : (size.height : ℚ) ≠ 0 := by exact_mod_cast ne_of_gt hh
  by_cases hc : extent.height / (size.height : ℚ) > extent.width / (size.width : ℚ)
  · obtain ⟨hm, _, hvis⟩ := derived_pad_x extent size hw hne hc
    rw [hvis, hm]
    unfold QgsRectangle.width QgsRectangle.height
    constructor
    · simp only; field_simp; ring
    · rfl
  · obtain ⟨hm, _, hvis⟩ := derived_pad_y extent size hh hne hc
    rw [hvis, hm]
    unfold QgsRectangle.width QgsRectangle.height
    constructor
    · rfl
    · simp only; field_simp; ring

/-- The sign of the derived units per pixel for a non-empty extent and non-zero
output dimensions. -/
theorem derivedMapUnitsPerPixel_pos_iff (extent : QgsRectangle) (size : QSize)
    (hne : extent.isEmpty = false) (hw : size.width ≠ 0) (hh : size.height ≠ 0) :
    0 < derivedMapUnitsPerPixel extent size ↔ (0 < size.width ∨ 0 < size.height) := by
  obtain ⟨hx, hy⟩ := (isEmpty_eq_false_iff extent).1 hne
  have hW : 0 < extent.width := by unfold QgsRectangle.width; linarith
  have hH : 0 < extent.height := by unfold QgsRectangle.height; linarith
  have hwq : (size.width : ℚ) ≠ 0 := by exact_mod_cast hw
  have hhq : (size.height : ℚ) ≠ 0 := by exact_mod_cast hh
  have sx : 0 < extent.width / (size.width : ℚ) ↔ 0 < size.width := by
    rw [div_pos_iff]
    constructor
    · rintro (⟨_, h⟩ | ⟨h, _⟩)
      · exact_mod_cast h
      · linarith
    · intro h; left; exact ⟨hW, by exact_mod_cast h⟩
  have sy : 0 < extent.height / (size.height : ℚ) ↔ 0 < size.height := by
    rw [div_pos_iff]
    constructor
    · rintro (⟨_, h⟩ | ⟨h, _⟩)
      · exact_mod_cast h
      · linarith
    · intro h; left; exact ⟨hH, by exact_mod_cast h⟩
  unfold derivedMapUnitsPerPixel
  split_ifs with hc
  · rw [sy]
    constructor
    · intro h; right; exact h
    · rintro (h | h)
      · exact sy.1 (lt_trans (sx.2 h) hc)
      · exact h
  · rw [sx]
    constructor
    · intro h; left; exact h
    · rintro (h | h)
      · exact h
      · exact sx.1 (lt_of_lt_of_le (sy.2 h) (not_lt.1 hc))

end QgsMapSettings

/-! ## Viewport derivation: the claims -/

open QgsMapSettings

theorem sampleState_reachable : Reachable sampleScale sampleState :=
  Reachable.setOutputSize _ (Reachable.setExtent _ (Reachable.new false 0 0))

theorem negativeSizeState_reachable : Reachable sampleScale negativeSizeState :=
  Reachable.setOutputSize _ (Reachable.setExtent _ (Reachable.new false 0 0))

/-- C1: after re-derivation with a positive output width and height, if the
settings are valid then the visible extent contains the requested extent on all
four sides. -/
theorem visibleExtent_contains_extent (calculate : ScaleFormula) (s : QgsMapSettings)
    (hw : 0 < s.outputSize.width) (hh : 0 < s.outputSize.height)
    (hv : (updateDerived calculate s).hasValidSettings = true) :
    (updateDerived calculate s).visibleExtent.xMinimum ≤ s.extent.xMinimum ∧
    (updateDerived calculate s).visibleExtent.yMinimum ≤ s.extent.yMinimum ∧
    (updateDerived calculate s).visibleExtent.xMaximum ≥ s.extent.xMaximum ∧
    (updateDerived calculate s).visibleExtent.yMaximum ≥ s.extent.yMaximum := by
  obtain ⟨hp, _, hvis⟩ := updateDerived_valid_fields calculate s hv
  unfold visibleExtent
  rw [hvis]
  exact derivedVisibleExtent_contains s.mExtent s.mSize hw hh hp.1

/-- C1, worked example: the extent `(0,0)-(4,2)` on a 100 x 100 output is valid and
is shown inside `(0,-1)-(4,3)`. -/
theorem visibleExtent_contains_extent_witness :
    (0 < sampleState.outputSize.width ∧ 0 < sampleState.outputSize.height ∧
      (updateDerived sampleScale sampleState).hasValidSettings = true) ∧
    (updateDerived sampleScale sampleState).visibleExtent.xMinimum ≤ sampleState.extent.xMinimum ∧
    (updateDerived sampleScale sampleState).visibleExtent.yMinimum ≤ sampleState.extent.yMinimum ∧
    (updateDerived sampleScale sampleState).visibleExtent.xMaximum ≥ sampleState.extent.xMaximum ∧
    (updateDerived sampleScale sampleState).visibleExtent.yMaximum ≥ sampleState.extent.yMaximum :=
  ⟨by decide!,
   visibleExtent_contains_extent sampleScale sampleState (by decide!) (by decide!) (by decide!)⟩

/-- C2: in every reachable valid state with positive output width and height, the
visible width per output pixel equals the visible height per output pixel, and
both equal `mapUnitsPerPixel()`. -/
theorem aspect_exact (calculate : ScaleFormula) (s : QgsMapSettings)
    (hr : Reachable calculate s) (hv : s.hasValidSettings = true)
    (hw : 0 < s.outputSize.width) (hh : 0 < s.outputSize.height) :
    s.visibleExtent.width / (s.outputSize.width : ℚ) =
      s.visibleExtent.height / (s.outputSize.height : ℚ) ∧
    s.visibleExtent.width / (s.outputSize.width : ℚ) = s.mapUnitsPerPixel ∧
    s.visibleExtent.height / (s.outputSize.height : ℚ) = s.mapUnitsPerPixel := by
  obtain ⟨hp, hm, hvis⟩ := settled_valid_fields calculate s (reachable_settled calculate s hr) hv
  obtain ⟨h1, h2⟩ := derivedVisibleExtent_aspect s.mExtent s.mSize hw hh hp.1
  unfold visibleExtent mapUnitsPerPixel outputSize
  rw [hvis, hm]
  exact ⟨h1.trans h2.symm, h1, h2⟩

/-- C2, worked example: the sample state is reachable and valid, and shows 1/25 map
unit per pixel on both axes. -/
theorem aspect_exact_witness :
    (sampleState.hasValidSettings = true ∧ 0 < sampleState.outputSize.width ∧
      0 < sampleState.outputSize.height ∧ sampleState.mapUnitsPerPixel = 1 / 25) ∧
    sampleState.visibleExtent.width / (sampleState.outputSize.width : ℚ) =
      sampleState.visibleExtent.height / (sampleState.outputSize.height : ℚ) ∧
    sampleState.visibleExtent.width / (sampleState.outputSize.width : ℚ) =
      sampleState.mapUnitsPerPixel ∧
    sampleState.visibleExtent.height / (sampleState.outputSize.height : ℚ) =
      sampleState.mapUnitsPerPixel :=
  ⟨by decide!,
   aspect_exact sampleScale sampleState sampleState_reachable (by decide!) (by decide!)
    (by decide!)⟩

/-- C3: after re-derivation the settings are valid exactly when the extent is not
empty, the extent is not a sub-unit rectangle with a width-to-mean or
height-to-mean proportion below `1e-12`, and neither output dimension is zero.
In particular `setOutputSize(0,0)` always gives an invalid state, and a non-empty,
non-degenerate extent with positive output dimensions always gives a valid one. -/
theorem hasValidSettings_characterisation (calculate : ScaleFormula) (s : QgsMapSettings) :
    ((updateDerived calculate s).hasValidSettings = true ↔
      (s.extent.isEmpty = false ∧
       ¬ ((0 < s.extent.width ∧ s.extent.width < 1 ∧
            0 < s.extent.height ∧ s.extent.height < 1) ∧
          (s.extent.width / ((|s.extent.xMinimum| + |s.extent.xMaximum|) / 2) < 1 / 10 ^ 12 ∨
           s.extent.height / ((|s.extent.yMinimum| + |s.extent.yMaximum|) / 2)
             < 1 / 10 ^ 12)) ∧
       (s.outputSize.width ≠ 0 ∧ s.outputSize.height ≠ 0))) ∧
    (s.setOutputSize calculate ⟨0, 0⟩).hasValidSettings = false ∧
    (s.extent.isEmpty = false →
      ¬ ((0 < s.extent.width ∧ s.extent.width < 1 ∧
            0 < s.extent.height ∧ s.extent.height < 1) ∧
          (s.extent.width / ((|s.extent.xMinimum| + |s.extent.xMaximum|) / 2) < 1 / 10 ^ 12 ∨
           s.extent.height / ((|s.extent.yMinimum| + |s.extent.yMaximum|) / 2)
             < 1 / 10 ^ 12)) →
      0 < s.outputSize.width → 0 < s.outputSize.height →
      (updateDerived calculate s).hasValidSettings = true) := by
  have key : ∀ t : QgsMapSettings, passesGuards t ↔
      (t.extent.isEmpty = false ∧
       ¬ ((0 < t.extent.width ∧ t.extent.width < 1 ∧
            0 < t.extent.height ∧ t.extent.height < 1) ∧
          (t.extent.width / ((|t.extent.xMinimum| + |t.extent.xMaximum|) / 2) < 1 / 10 ^ 12 ∨
           t.extent.height / ((|t.extent.yMinimum| + |t.extent.yMaximum|) / 2)
             < 1 / 10 ^ 12)) ∧
       (t.outputSize.width ≠ 0 ∧ t.outputSize.height ≠ 0)) := by
    intro t
    unfold passesGuards extent outputSize minProportion
    have e1 : (|t.mExtent.xMinimum| + |t.mExtent.xMaximum|) * (1 / 2) =
        (|t.mExtent.xMinimum| + |t.mExtent.xMaximum|) / 2 := by ring
    have e2 : (|t.mExtent.yMinimum| + |t.mExtent.yMaximum|) * (1 / 2) =
        (|t.mExtent.yMinimum| + |t.mExtent.yMaximum|) / 2 := by ring
    rw [e1, e2]
    have c1 : ((t.mSize.width : ℚ) ≠ 0) ↔ t.mSize.width ≠ 0 := by
      constructor
      · intro h h0; apply h; exact_mod_cast h0
      · intro h h0; apply h; exact_mod_cast h0
    have c2 : ((t.mSize.height : ℚ) ≠ 0) ↔ t.mSize.height ≠ 0 := by
      constructor
      · intro h h0; apply h; exact_mod_cast h0
      · intro h h0; apply h; exact_mod_cast h0
    rw [c1, c2]
    constructor
    · rintro ⟨h1, h2, h3⟩
      exact ⟨h1, fun ⟨⟨a, b, c, d⟩, e⟩ => h2 ⟨⟨a, c, b, d⟩, e⟩, h3⟩
    · rintro ⟨h1, h2, h3⟩
      exact ⟨h1, fun ⟨⟨a, b, c, d⟩, e⟩ => h2 ⟨⟨a, c, b, d⟩, e⟩, h3⟩
  refine ⟨?_, ?_, ?_⟩
  · unfold hasValidSettings
    rw [updateDerived_valid_iff, key]
  · unfold hasValidSettings setOutputSize
    rw [← Bool.not_eq_true, updateDerived_valid_iff, key]
    rintro ⟨_, _, h, _⟩
    exact h rfl
  · intro h1 h2 h3 h4
    unfold hasValidSettings
    rw [updateDerived_valid_iff, key]
    exact ⟨h1, h2, ne_of_gt h3, ne_of_gt h4⟩

/-- C3, worked example: the extent `(0,0)-(4,2)` on a 100 x 100 output is valid. -/
theorem hasValidSettings_characterisation_witness :
    (sampleState.extent.isEmpty = false ∧ 0 < sampleState.outputSize.width ∧
      0 < sampleState.outputSize.height) ∧
    (updateDerived sampleScale sampleState).hasValidSettings = true :=
  ⟨by decide!,
   (hasValidSettings_characterisation sampleScale sampleState).2.2 (by decide!) (by decide!) (by decide!) (by decide!)⟩

/-- C4: in every state reachable from the constructor through the public mutators,
either the settings are invalid, or `mapUnitsPerPixel()` and `visibleExtent()` are
exactly what re-derivation computes from the current state, which are the values
determined by the current `extent()` and `outputSize()` alone. -/
theorem reachable_derived_current (calculate : ScaleFormula) (s : QgsMapSettings)
    (hr : Reachable calculate s) :
    s.hasValidSettings = false ∨
    (s.mapUnitsPerPixel = (updateDerived calculate s).mapUnitsPerPixel ∧
     s.visibleExtent = (updateDerived calculate s).visibleExtent ∧
     s.mapUnitsPerPixel = derivedMapUnitsPerPixel s.extent s.outputSize ∧
     s.visibleExtent = derivedVisibleExtent s.extent s.outputSize) := by
  have hs := reachable_settled calculate s hr
  by_cases hv : s.mValid = true
  · right
    obtain ⟨_, hm, hvis⟩ := settled_valid_fields calculate s hs hv
    unfold Settled at hs
    unfold mapUnitsPerPixel visibleExtent extent outputSize
    rw [hs]
    exact ⟨rfl, rfl, hm, hvis⟩
  · left
    simpa [hasValidSettings] using hv

/-- C4, worked example: the sample state is reachable and valid, so its derived
members are current. -/
theorem reachable_derived_current_witness :
    (Reachable sampleScale sampleState ∧ sampleState.hasValidSettings = true) ∧
    (sampleState.hasValidSettings = false ∨
     (sampleState.mapUnitsPerPixel = (updateDerived sampleScale sampleState).mapUnitsPerPixel ∧
      sampleState.visibleExtent = (updateDerived sampleScale sampleState).visibleExtent ∧
      sampleState.mapUnitsPerPixel =
        derivedMapUnitsPerPixel sampleState.extent sampleState.outputSize ∧
      sampleState.visibleExtent =
        derivedVisibleExtent sampleState.extent sampleState.outputSize)) :=
  ⟨⟨sampleState_reachable, by decide!⟩,
   reachable_derived_current sampleScale sampleState sampleState_reachable⟩

/-- C5: in every reachable state, `setExtent(extent())` returns the very same
state: every input and every derived output is unchanged. -/
theorem setExtent_extent_unchanged (calculate : ScaleFormula) (s : QgsMapSettings)
    (hr : Reachable calculate s) :
    s.setExtent calculate s.extent = s ∧
    (s.setExtent calculate s.extent).hasValidSettings = s.hasValidSettings ∧
    (s.setExtent calculate s.extent).visibleExtent = s.visibleExtent ∧
    (s.setExtent calculate s.extent).mapUnitsPerPixel = s.mapUnitsPerPixel ∧
    (s.setExtent calculate s.extent).scale = s.scale ∧
    (s.setExtent calculate s.extent).mMapToPixel = s.mMapToPixel := by
  have hs : s.setExtent calculate s.extent = s := reachable_settled calculate s hr
  rw [hs]
  exact ⟨rfl, rfl, rfl, rfl, rfl, rfl⟩

/-- C5, worked example: re-setting the extent of the (reachable) sample state changes
nothing. -/
theorem setExtent_extent_unchanged_witness :
    Reachable sampleScale sampleState ∧
    sampleState.setExtent sampleScale sampleState.extent = sampleState ∧
    (sampleState.setExtent sampleScale sampleState.extent).hasValidSettings =
      sampleState.hasValidSettings ∧
    (sampleState.setExtent sampleScale sampleState.extent).visibleExtent =
      sampleState.visibleExtent ∧
    (sampleState.setExtent sampleScale sampleState.extent).mapUnitsPerPixel =
      sampleState.mapUnitsPerPixel ∧
    (sampleState.setExtent sampleScale sampleState.extent).scale = sampleState.scale ∧
    (sampleState.setExtent sampleScale sampleState.extent).mMapToPixel =
      sampleState.mMapToPixel :=
  ⟨sampleState_reachable,
   setExtent_extent_unchanged sampleScale sampleState sampleState_reachable⟩

/-- C6: in every reachable state, each of `setExtent`, `setOutputSize`,
`setOutputDpi`, `setDestinationCrs` and `setMapUnits` yields the state that
re-derivation computes once the one input has been replaced. For
`setDestinationCrs`, whose body only assigns `mDestCRS`, the two agree because
re-derivation does not read the CRS and the state it starts from is settled. -/
theorem mutators_rederive (calculate : ScaleFormula) (s : QgsMapSettings)
    (hr : Reachable calculate s) :
    (∀ r : QgsRectangle,
      s.setExtent calculate r = updateDerived calculate { s with mExtent := r }) ∧
    (∀ size : QSize,
      s.setOutputSize calculate size = updateDerived calculate { s with mSize := size }) ∧
    (∀ dpi : Int,
      s.setOutputDpi calculate dpi = updateDerived calculate { s with mDpi := dpi }) ∧
    (∀ crs : QgsCoordinateReferenceSystem,
      s.setDestinationCrs crs = updateDerived calculate { s with mDestCRS := crs }) ∧
    (∀ u : UnitType,
      s.setMapUnits calculate u =
        updateDerived calculate
          { s with mScaleCalculator := s.mScaleCalculator.setMapUnits u }) := by
  refine ⟨fun _ => rfl, fun _ => rfl, fun _ => rfl, fun crs => ?_, fun _ => rfl⟩
  have hs := reachable_settled calculate s hr
  have hf := settled_frame calculate s s.mLayers s.mProjectionsEnabled crs s.mFlags hs
  exact hf.symm

/-- C6, worked example: the five mutators at the (reachable) sample state, each with
one concrete argument. -/
theorem mutators_rederive_witness :
    Reachable sampleScale sampleState ∧
    sampleState.setExtent sampleScale ⟨1, 1, 3, 9⟩ =
      updateDerived sampleScale { sampleState with mExtent := ⟨1, 1, 3, 9⟩ } ∧
    sampleState.setOutputSize sampleScale ⟨640, 480⟩ =
      updateDerived sampleScale { sampleState with mSize := ⟨640, 480⟩ } ∧
    sampleState.setOutputDpi sampleScale 300 =
      updateDerived sampleScale { sampleState with mDpi := 300 } ∧
    sampleState.setDestinationCrs ⟨"EPSG:3857"⟩ =
      updateDerived sampleScale { sampleState with mDestCRS := ⟨"EPSG:3857"⟩ } ∧
    sampleState.setMapUnits sampleScale UnitType.Feet =
      updateDerived sampleScale
        { sampleState with
          mScaleCalculator := sampleState.mScaleCalculator.setMapUnits UnitType.Feet } :=
  ⟨sampleState_reachable,
   (mutators_rederive sampleScale sampleState sampleState_reachable).1 ⟨1, 1, 3, 9⟩,
   (mutators_rederive sampleScale sampleState sampleState_reachable).2.1 ⟨640, 480⟩,
   (mutators_rederive sampleScale sampleState sampleState_reachable).2.2.1 300,
   (mutators_rederive sampleScale sampleState sampleState_reachable).2.2.2.1 ⟨"EPSG:3857"⟩,
   (mutators_rederive sampleScale sampleState sampleState_reachable).2.2.2.2 UnitType.Feet⟩

/-- C7 as stated fails: the reachable state with extent `(0,0)-(4,2)` and output
size `-100 x -100` is valid, and its `mapUnitsPerPixel()` is `-1/50`. -/
theorem mapUnitsPerPixel_pos_counterexample :
    Reachable sampleScale negativeSizeState ∧
    negativeSizeState.hasValidSettings = true ∧
    negativeSizeState.mapUnitsPerPixel = -1 / 50 ∧
    ¬ (0 < negativeSizeState.mapUnitsPerPixel) :=
  ⟨negativeSizeState_reachable, by decide!, by decide!, by decide!⟩

/-- C7 amended, arithmetic read over exact reals: whenever the settings are valid
after re-derivation, `mapUnitsPerPixel()` is strictly positive exactly when the
output width or the output height is positive; in particular it is positive for
every output size with positive dimensions. -/
theorem mapUnitsPerPixel_pos_iff (calculate : ScaleFormula) (s : QgsMapSettings)
    (hv : (updateDerived calculate s).hasValidSettings = true) :
    (0 < (updateDerived calculate s).mapUnitsPerPixel ↔
      (0 < s.outputSize.width ∨ 0 < s.outputSize.height)) ∧
    (0 < s.outputSize.width → 0 < s.outputSize.height →
      0 < (updateDerived calculate s).mapUnitsPerPixel) := by
  obtain ⟨hp, hm, _⟩ := updateDerived_valid_fields calculate s hv
  have hw : s.mSize.width ≠ 0 := fun h => hp.2.2.1 (by rw [h]; rfl)
  have hh : s.mSize.height ≠ 0 := fun h => hp.2.2.2 (by rw [h]; rfl)
  have key := derivedMapUnitsPerPixel_pos_iff s.mExtent s.mSize hp.1 hw hh
  unfold mapUnitsPerPixel outputSize
  rw [hm]
  exact ⟨key, fun h _ => key.2 (Or.inl h)⟩

/-- C7 amended, worked example: the sample state has positive output dimensions and
`1/25` map unit per pixel. -/
theorem mapUnitsPerPixel_pos_iff_witness :
    (updateDerived sampleScale sampleState).hasValidSettings = true ∧
    (updateDerived sampleScale sampleState).mapUnitsPerPixel = 1 / 25 ∧
    (0 < (updateDerived sampleScale sampleState).mapUnitsPerPixel ↔
      (0 < sampleState.outputSize.width ∨ 0 < sampleState.outputSize.height)) ∧
    (0 < sampleState.outputSize.width → 0 < sampleState.outputSize.height →
      0 < (updateDerived sampleScale sampleState).mapUnitsPerPixel) :=
  ⟨by decide!, by decide!, mapUnitsPerPixel_pos_iff sampleScale sampleState (by decide!)⟩

/-- C8: when the extent has width and height strictly between 0 and 1 and the
width-to-mean or height-to-mean proportion is below `1e-12`, the settings are
invalid after re-derivation, whatever the output size. -/
theorem degenerate_extent_invalid (calculate : ScaleFormula) (s : QgsMapSettings)
    (hW : 0 < s.extent.width ∧ s.extent.width < 1)
    (hH : 0 < s.extent.height ∧ s.extent.height < 1)
    (hsmall :
      s.extent.width / ((|s.extent.xMinimum| + |s.extent.xMaximum|) / 2) < 1 / 10 ^ 12 ∨
      s.extent.height / ((|s.extent.yMinimum| + |s.extent.yMaximum|) / 2) < 1 / 10 ^ 12) :
    (updateDerived calculate s).hasValidSettings = false ∧
    ∀ size : QSize, (s.setOutputSize calculate size).hasValidSettings = false := by
  have key : ∀ t : QgsMapSettings, t.mExtent = s.mExtent →
      (updateDerived calculate t).mValid = false := by
    intro t ht
    rw [← Bool.not_eq_true, updateDerived_valid_iff]
    rintro ⟨_, h2, _⟩
    apply h2
    rw [ht]
    unfold extent at hW hH hsmall
    have e1 : (|s.mExtent.xMinimum| + |s.mExtent.xMaximum|) * (1 / 2) =
        (|s.mExtent.xMinimum| + |s.mExtent.xMaximum|) / 2 := by ring
    have e2 : (|s.mExtent.yMinimum| + |s.mExtent.yMaximum|) * (1 / 2) =
        (|s.mExtent.yMinimum| + |s.mExtent.yMaximum|) / 2 := by ring
    rw [e1, e2]
    exact ⟨⟨hW.1, hH.1, hW.2, hH.2⟩, hsmall⟩
  exact ⟨key s rfl, fun size => key _ rfl⟩

/-- C8, worked example: width and height `1e-13` centred at `(1e6, 1e6)`, on the
current 100 x 100 output and on a 640 x 480 one. -/
theorem degenerate_extent_invalid_witness :
    (tinyState.extent.width = 1 / 10 ^ 13 ∧ tinyState.extent.height = 1 / 10 ^ 13 ∧
      tinyState.extent.xMinimum + tinyState.extent.xMaximum = 2 * 10 ^ 6 ∧
      tinyState.extent.yMinimum + tinyState.extent.yMaximum = 2 * 10 ^ 6) ∧
    (updateDerived sampleScale tinyState).hasValidSettings = false ∧
    (tinyState.setOutputSize sampleScale ⟨640, 480⟩).hasValidSettings = false :=
  ⟨by decide!,
   (degenerate_extent_invalid sampleScale tinyState (by decide!) (by decide!) (by decide!)).1,
   (degenerate_extent_invalid sampleScale tinyState (by decide!) (by decide!) (by decide!)).2
     ⟨640, 480⟩⟩

/-! ## Full extent -/

theorem setMinimal_width_ne_zero : QgsRectangle.setMinimal.width ≠ 0 := by decide!

theorem setMinimal_height_ne_zero : QgsRectangle.setMinimal.height ≠ 0 := by decide!

/-- The fallback leaves the minimal rectangle alone: its width and height are
`-2 * DBL_MAX`, not zero. -/
theorem fullExtentFallback_setMinimal :
    fullExtentFallback QgsRectangle.setMinimal = QgsRectangle.setMinimal := by decide!

/-- A source whose native extent is empty, and an identifier that does not resolve,
leave the running rectangle as it is. -/
theorem fullExtentStep_skip (registry : QgsMapLayerRegistry)
    (cache : QgsCoordinateTransformCache) (s : QgsMapSettings) (acc : QgsRectangle)
    (layerId : String)
    (h : ∀ lyr, registry layerId = some lyr → lyr.extent.isEmpty = true) :
    fullExtentStep registry cache s acc layerId = acc := by
  unfold fullExtentStep
  cases hreg : registry layerId with
  | none => rfl
  | some lyr => simp [h lyr hreg]

theorem foldl_fullExtentStep_skip (registry : QgsMapLayerRegistry)
    (cache : QgsCoordinateTransformCache) (s : QgsMapSettings) (ids : List String)
    (acc : QgsRectangle)
    (h : ∀ layerId ∈ ids, ∀ lyr, registry layerId = some lyr → lyr.extent.isEmpty = true) :
    ids.foldl (fullExtentStep registry cache s) acc = acc := by
  induction ids generalizing acc with
  | nil => rfl
  | cons layerId rest ih =>
    rw [List.foldl_cons, fullExtentStep_skip registry cache s acc layerId
      (h layerId (List.mem_cons_self _ _))]
    exact ih acc (fun i hi => h i (List.mem_cons_of_mem _ hi))

/-- When no source contributes, `fullExtent` returns the minimal rectangle. -/
theorem fullExtent_no_contribution (registry : QgsMapLayerRegistry)
    (cache : QgsCoordinateTransformCache) (s : QgsMapSettings)
    (h : ∀ layerId ∈ s.mLayers, ∀ lyr, registry layerId = some lyr →
      lyr.extent.isEmpty = true) :
    fullExtent registry cache s = QgsRectangle.setMinimal := by
  unfold fullExtent
  rw [foldl_fullExtentStep_skip registry cache s s.mLayers _ h]
  exact fullExtentFallback_setMinimal

/-- A source whose native extent is a single point is skipped by the emptiness test
of line 421, with or without projections. -/
theorem fullExtent_point_sources (registry : QgsMapLayerRegistry)
    (cache : QgsCoordinateTransformCache) (s : QgsMapSettings) (x y : ℚ)
    (h : ∀ layerId ∈ s.mLayers, ∀ lyr, registry layerId = some lyr →
      lyr.extent = ⟨x, y, x, y⟩) :
    fullExtent registry cache s = QgsRectangle.setMinimal := by
  apply fullExtent_no_contribution
  intro layerId hmem lyr hreg
  rw [h layerId hmem lyr hreg]
  simp [QgsRectangle.isEmpty]

/-- C9, the code at the failing input: with the layer list `["origin", "origin"]`,
every source resolving to the single point `(0,0)`, `fullExtent()` returns the
minimal rectangle `(DBL_MAX, DBL_MAX, -DBL_MAX, -DBL_MAX)`, not `(-1,-1)-(1,1)`:
the point extent is empty, line 421 skips it, and the fallback is never entered. -/
theorem fullExtent_origin_points :
    originLayersState.layers ≠ [] ∧
    (∀ layerId ∈ originLayersState.layers, ∃ lyr, pointRegistry layerId = some lyr ∧
      lyr.extent = ⟨0, 0, 0, 0⟩) ∧
    fullExtent pointRegistry identityCache originLayersState = QgsRectangle.setMinimal ∧
    fullExtent pointRegistry identityCache originLayersState ≠ ⟨-1, -1, 1, 1⟩ ∧
    fullExtent pointRegistry identityCache (originLayersState.setProjectionsEnabled true) ≠
      ⟨-1, -1, 1, 1⟩ := by
  refine ⟨by decide, ?_, by decide!, by decide!, by decide!⟩
  intro layerId hmem
  have hid : layerId = "origin" := by
    simpa [originLayersState, setLayers, layers] using hmem
  subst hid
  exact ⟨_, rfl, rfl⟩

/-- C10, the code at the failing input: with the single source `"hundred"`, whose
native extent is the point `(100,100)`, `fullExtent()` returns the minimal
rectangle, whose width and height are negative and which does not contain
`(100,100)`: line 421 skips the zero-area extent before it is unioned. -/
theorem fullExtent_point_hundred :
    pointRegistry "hundred" = some ⟨"hundred", ⟨100, 100, 100, 100⟩,
      QgsCoordinateReferenceSystem.wgs84⟩ ∧
    hundredLayerState.layers = ["hundred"] ∧
    fullExtent pointRegistry identityCache hundredLayerState = QgsRectangle.setMinimal ∧
    (fullExtent pointRegistry identityCache hundredLayerState).width < 0 ∧
    (fullExtent pointRegistry identityCache hundredLayerState).height < 0 ∧
    ¬ ((fullExtent pointRegistry identityCache hundredLayerState).xMinimum < 100 ∧
       100 < (fullExtent pointRegistry identityCache hundredLayerState).xMaximum) := by
  refine ⟨by decide, by decide, by decide!, by decide!, by decide!, by decide!⟩

/-! ## Coordinate routing: the claims -/

/-- C11: with projections disabled, each of the six routing operations returns its
argument unchanged, for every layer and every input; hence
`mapToLayerCoordinates` and `layerToMapCoordinates` undo each other on every
point. -/
theorem routing_passthrough (cache : QgsCoordinateTransformCache) (s : QgsMapSettings)
    (hoff : s.hasCrsTransformEnabled = false) (theLayer : QgsMapLayer) (point : QgsPoint)
    (rect : QgsRectangle) :
    s.layerToMapCoordinates cache theLayer point = point ∧
    s.mapToLayerCoordinates cache theLayer point = point ∧
    s.layerToMapCoordinatesRect cache theLayer rect = rect ∧
    s.mapToLayerCoordinatesRect cache theLayer rect = rect ∧
    s.layerExtentToOutputExtent cache theLayer rect = rect ∧
    s.outputExtentToLayerExtent cache theLayer rect = rect ∧
    s.mapToLayerCoordinates cache theLayer (s.layerToMapCoordinates cache theLayer point)
      = point ∧
    s.layerToMapCoordinates cache theLayer (s.mapToLayerCoordinates cache theLayer point)
      = point := by
  unfold layerToMapCoordinates mapToLayerCoordinates layerToMapCoordinatesRect
    mapToLayerCoordinatesRect layerExtentToOutputExtent outputExtentToLayerExtent
  simp [hoff]

/-- C11, worked example: the sample state has projections disabled; a cache whose
transforms shift or throw is never consulted. -/
theorem routing_passthrough_witness :
    sampleState.hasCrsTransformEnabled = false ∧
    sampleState.layerToMapCoordinates oneWayCache sampleLayer ⟨1, 2⟩ = ⟨1, 2⟩ ∧
    sampleState.mapToLayerCoordinates oneWayCache sampleLayer ⟨1, 2⟩ = ⟨1, 2⟩ ∧
    sampleState.layerToMapCoordinatesRect oneWayCache sampleLayer ⟨0, 0, 1, 1⟩ = ⟨0, 0, 1, 1⟩ ∧
    sampleState.mapToLayerCoordinatesRect oneWayCache sampleLayer ⟨0, 0, 1, 1⟩ = ⟨0, 0, 1, 1⟩ ∧
    sampleState.layerExtentToOutputExtent oneWayCache sampleLayer ⟨0, 0, 1, 1⟩ = ⟨0, 0, 1, 1⟩ ∧
    sampleState.outputExtentToLayerExtent oneWayCache sampleLayer ⟨0, 0, 1, 1⟩ = ⟨0, 0, 1, 1⟩ ∧
    sampleState.mapToLayerCoordinates oneWayCache sampleLayer
      (sampleState.layerToMapCoordinates oneWayCache sampleLayer ⟨1, 2⟩) = ⟨1, 2⟩ ∧
    sampleState.layerToMapCoordinates oneWayCache sampleLayer
      (sampleState.mapToLayerCoordinates oneWayCache sampleLayer ⟨1, 2⟩) = ⟨1, 2⟩ :=
  ⟨by decide!, routing_passthrough oneWayCache sampleState (by decide!) sampleLayer ⟨1, 2⟩
    ⟨0, 0, 1, 1⟩⟩

/-- C12: with projections enabled, each of the six routing operations returns the
value of the layer's transform when the transform succeeds and the untransformed
input when it throws (`Option.getD`); the result is always a point or rectangle,
never a failure. The operations are functions of the state that return only that
value, so the viewport state is the same after the call. -/
theorem routing_failure_policy (cache : QgsCoordinateTransformCache) (s : QgsMapSettings)
    (hon : s.hasCrsTransformEnabled = true) (theLayer : QgsMapLayer) (point : QgsPoint)
    (rect : QgsRectangle) :
    s.layerExtentToOutputExtent cache theLayer rect =
      ((s.coordTransform cache theLayer).transformBoundingBox rect
        TransformDirection.ForwardTransform).getD rect ∧
    s.outputExtentToLayerExtent cache theLayer rect =
      ((s.coordTransform cache theLayer).transformBoundingBox rect
        TransformDirection.ReverseTransform).getD rect ∧
    s.layerToMapCoordinates cache theLayer point =
      ((s.coordTransform cache theLayer).transformPoint point
        TransformDirection.ForwardTransform).getD point ∧
    s.layerToMapCoordinatesRect cache theLayer rect =
      ((s.coordTransform cache theLayer).transformRect rect
        TransformDirection.ForwardTransform).getD rect ∧
    s.mapToLayerCoordinates cache theLayer point =
      ((s.coordTransform cache theLayer).transformPoint point
        TransformDirection.ReverseTransform).getD point ∧
    s.mapToLayerCoordinatesRect cache theLayer rect =
      ((s.coordTransform cache theLayer).transformRect rect
        TransformDirection.ReverseTransform).getD rect := by
  unfold layerToMapCoordinates mapToLayerCoordinates layerToMapCoordinatesRect
    mapToLayerCoordinatesRect layerExtentToOutputExtent outputExtentToLayerExtent
  simp only [hon, if_true]
  refine ⟨?_, ?_, ?_, ?_, ?_, ?_⟩ <;> split <;> simp_all

/-- C12, worked example: projections enabled, forward transforms shift by `(10, 20)`,
reverse transforms throw: forward operations return the shifted value, reverse
operations return their input. -/
theorem routing_failure_policy_witness :
    projectedState.hasCrsTransformEnabled = true ∧
    (projectedState.layerToMapCoordinates oneWayCache sampleLayer ⟨1, 2⟩ = ⟨11, 22⟩ ∧
     projectedState.mapToLayerCoordinates oneWayCache sampleLayer ⟨1, 2⟩ = ⟨1, 2⟩ ∧
     projectedState.layerExtentToOutputExtent oneWayCache sampleLayer ⟨0, 0, 1, 1⟩ =
       ⟨10, 20, 11, 21⟩ ∧
     projectedState.outputExtentToLayerExtent oneWayCache sampleLayer ⟨0, 0, 1, 1⟩ =
       ⟨0, 0, 1, 1⟩) ∧
    (projectedState.layerExtentToOutputExtent oneWayCache sampleLayer ⟨0, 0, 1, 1⟩ =
      ((projectedState.coordTransform oneWayCache sampleLayer).transformBoundingBox ⟨0, 0, 1, 1⟩
        TransformDirection.ForwardTransform).getD ⟨0, 0, 1, 1⟩ ∧
    projectedState.outputExtentToLayerExtent oneWayCache sampleLayer ⟨0, 0, 1, 1⟩ =
      ((projectedState.coordTransform oneWayCache sampleLayer).transformBoundingBox ⟨0, 0, 1, 1⟩
        TransformDirection.ReverseTransform).getD ⟨0, 0, 1, 1⟩ ∧
    projectedState.layerToMapCoordinates oneWayCache sampleLayer ⟨1, 2⟩ =
      ((projectedState.coordTransform oneWayCache sampleLayer).transformPoint ⟨1, 2⟩
        TransformDirection.ForwardTransform).getD ⟨1, 2⟩ ∧
    projectedState.layerToMapCoordinatesRect oneWayCache sampleLayer ⟨0, 0, 1, 1⟩ =
      ((projectedState.coordTransform oneWayCache sampleLayer).transformRect ⟨0, 0, 1, 1⟩
        TransformDirection.ForwardTransform).getD ⟨0, 0, 1, 1⟩ ∧
    projectedState.mapToLayerCoordinates oneWayCache sampleLayer ⟨1, 2⟩ =
      ((projectedState.coordTransform oneWayCache sampleLayer).transformPoint ⟨1, 2⟩
        TransformDirection.ReverseTransform).getD ⟨1, 2⟩ ∧
    projectedState.mapToLayerCoordinatesRect oneWayCache sampleLayer ⟨0, 0, 1, 1⟩ =
      ((projectedState.coordTransform oneWayCache sampleLayer).transformRect ⟨0, 0, 1, 1⟩
        TransformDirection.ReverseTransform).getD ⟨0, 0, 1, 1⟩) :=
  ⟨by decide!, by decide!,
   routing_failure_policy oneWayCache projectedState (by decide!) sampleLayer ⟨1, 2⟩
    ⟨0, 0, 1, 1⟩⟩

/-! ## Full extent: the layer list -/

/-- The loop body reads the state only through `mProjectionsEnabled` and `mDestCRS`,
so the layer list of the state does not matter to it. -/
theorem fullExtentStep_setLayers (registry : QgsMapLayerRegistry)
    (cache : QgsCoordinateTransformCache) (s : QgsMapSettings) (layers : List String) :
    fullExtentStep registry cache (s.setLayers layers) = fullExtentStep registry cache s :=
  rfl

theorem fullExtentStep_of_not_contributes (registry : QgsMapLayerRegistry)
    (cache : QgsCoordinateTransformCache) (s : QgsMapSettings) (acc : QgsRectangle)
    (layerId : String) (h : contributes registry layerId = false) :
    fullExtentStep registry cache s acc layerId = acc := by
  apply fullExtentStep_skip
  intro lyr hreg
  unfold contributes at h
  rw [hreg] at h
  simpa using h

theorem foldl_fullExtentStep_filter (registry : QgsMapLayerRegistry)
    (cache : QgsCoordinateTransformCache) (s : QgsMapSettings) (ids : List String)
    (acc : QgsRectangle) :
    (ids.filter (contributes registry)).foldl (fullExtentStep registry cache s) acc =
      ids.foldl (fullExtentStep registry cache s) acc := by
  induction ids generalizing acc with
  | nil => rfl
  | cons layerId rest ih =>
    by_cases hc : contributes registry layerId = true
    · rw [List.filter_cons_of_pos hc, List.foldl_cons, List.foldl_cons, ih]
    · rw [List.filter_cons_of_neg hc, List.foldl_cons,
        fullExtentStep_of_not_contributes registry cache s acc layerId (by simpa using hc), ih]

/-- C13: `fullExtent()` of a layer list equals `fullExtent()` of the same list
with every identifier the registry does not resolve, and every source whose
native extent is empty, removed. -/
theorem fullExtent_skips_unresolved_and_empty (registry : QgsMapLayerRegistry)
    (cache : QgsCoordinateTransformCache) (s : QgsMapSettings) :
    fullExtent registry cache s =
      fullExtent registry cache
        (s.setLayers (s.layers.filter (fun layerId =>
          match registry layerId with
          | none => false
          | some lyr => !lyr.extent.isEmpty))) := by
  have hf : (fun layerId =>
      match registry layerId with
      | none => false
      | some lyr => !lyr.extent.isEmpty) = contributes registry := rfl
  rw [hf]
  unfold fullExtent
  rw [fullExtentStep_setLayers]
  show _ = fullExtentFallback
    (((s.layers).filter (contributes registry)).foldl (fullExtentStep registry cache s) _)
  rw [foldl_fullExtentStep_filter]
  rfl

/-- C13, worked example: the list `["a", "ghost", "void", "b"]`, where `"ghost"` does
not resolve and `"void"` has an empty extent, gives the same rectangle as
`["a", "b"]`, namely `(0,0)-(5,4)`. -/
theorem fullExtent_skips_unresolved_and_empty_witness :
    fullExtent boxRegistry identityCache mixedLayersState =
      fullExtent boxRegistry identityCache (mixedLayersState.setLayers ["a", "b"]) ∧
    fullExtent boxRegistry identityCache mixedLayersState = ⟨0, 0, 5, 4⟩ :=
  ⟨(fullExtent_skips_unresolved_and_empty boxRegistry identityCache mixedLayersState).trans
    (by decide!), by decide!⟩

/-- The four conditional assignments of `unionRect` are the componentwise minimum
and maximum. -/
theorem unionRect_eq (a r : QgsRectangle) :
    a.unionRect r =
      ⟨min a.xmin r.xmin, min a.ymin r.ymin, max a.xmax r.xmax, max a.ymax r.ymax⟩ := by
  unfold QgsRectangle.unionRect QgsRectangle.xMinimum QgsRectangle.xMaximum
    QgsRectangle.yMinimum QgsRectangle.yMaximum
  have e1 : min a.xmin r.xmin = if r.xmin < a.xmin then r.xmin else a.xmin := by
    split_ifs with h
    · exact min_eq_right (le_of_lt h)
    · exact min_eq_left (not_lt.1 h)
  have e2 : min a.ymin r.ymin = if r.ymin < a.ymin then r.ymin else a.ymin := by
    split_ifs with h
    · exact min_eq_right (le_of_lt h)
    · exact min_eq_left (not_lt.1 h)
  have e3 : max a.xmax r.xmax = if r.xmax > a.xmax then r.xmax else a.xmax := by
    split_ifs with h
    · exact max_eq_right (le_of_lt h)
    · exact max_eq_left (not_lt.1 h)
  have e4 : max a.ymax r.ymax = if r.ymax > a.ymax then r.ymax else a.ymax := by
    split_ifs with h
    · exact max_eq_right (le_of_lt h)
    · exact max_eq_left (not_lt.1 h)
  rw [e1, e2, e3, e4]
  by_cases h1 : r.xmin < a.xmin <;> by_cases h2 : r.xmax > a.xmax <;>
    by_cases h3 : r.ymin < a.ymin <;> by_cases h4 : r.ymax > a.ymax <;>
    simp [h1, h2, h3, h4]

theorem unionRect_right_comm (a r t : QgsRectangle) :
    (a.unionRect r).unionRect t = (a.unionRect t).unionRect r := by
  simp only [unionRect_eq]
  rw [QgsRectangle.mk.injEq]
  exact ⟨inf_right_comm _ _ _, inf_right_comm _ _ _, sup_right_comm _ _ _,
    sup_right_comm _ _ _⟩

theorem unionRect_absorb (a r : QgsRectangle) :
    (a.unionRect r).unionRect r = a.unionRect r := by
  simp only [unionRect_eq]
  rw [QgsRectangle.mk.injEq]
  refine ⟨?_, ?_, ?_, ?_⟩
  · rw [min_assoc, min_self]
  · rw [min_assoc, min_self]
  · rw [max_assoc, max_self]
  · rw [max_assoc, max_self]

/-- The loop body as a union with the contribution of the identifier, when there is
one. -/
theorem fullExtentStep_eq (registry : QgsMapLayerRegistry)
    (cache : QgsCoordinateTransformCache) (s : QgsMapSettings) (layerId : String) :
    (∀ acc, fullExtentStep registry cache s acc layerId = acc) ∨
    (∃ e : QgsRectangle, ∀ acc, fullExtentStep registry cache s acc layerId = acc.unionRect e) := by
  unfold fullExtentStep
  cases registry layerId with
  | none => left; intro acc; rfl
  | some lyr =>
    by_cases he : lyr.extent.isEmpty = true
    · left; intro acc; simp [he]
    · right
      exact ⟨layerExtentToOutputExtent cache s lyr lyr.extent, fun acc => by simp [he]⟩

theorem fullExtentStep_right_comm (registry : QgsMapLayerRegistry)
    (cache : QgsCoordinateTransformCache) (s : QgsMapSettings) (acc : QgsRectangle)
    (x y : String) :
    fullExtentStep registry cache s (fullExtentStep registry cache s acc x) y =
      fullExtentStep registry cache s (fullExtentStep registry cache s acc y) x := by
  rcases fullExtentStep_eq registry cache s x with hx | ⟨ex, hx⟩ <;>
  rcases fullExtentStep_eq registry cache s y with hy | ⟨ey, hy⟩ <;>
  simp only [hx, hy]
  exact unionRect_right_comm acc ex ey

theorem fullExtentStep_absorb (registry : QgsMapLayerRegistry)
    (cache : QgsCoordinateTransformCache) (s : QgsMapSettings) (acc : QgsRectangle)
    (x : String) :
    fullExtentStep registry cache s (fullExtentStep registry cache s acc x) x =
      fullExtentStep registry cache s acc x := by
  rcases fullExtentStep_eq registry cache s x with hx | ⟨ex, hx⟩ <;> simp only [hx]
  exact unionRect_absorb acc ex

/-- An identifier already in the list can be repeated in front of it. -/
theorem foldl_fullExtentStep_repeat (registry : QgsMapLayerRegistry)
    (cache : QgsCoordinateTransformCache) (s : QgsMapSettings) (ids : List String)
    (x : String) (hx : x ∈ ids) (acc : QgsRectangle) :
    (x :: ids).foldl (fullExtentStep registry cache s) acc =
      ids.foldl (fullExtentStep registry cache s) acc := by
  induction ids generalizing acc with
  | nil => simp at hx
  | cons y rest ih =>
    rcases List.mem_cons.1 hx with hxy | hmem
    · subst hxy
      simp only [List.foldl_cons]
      rw [fullExtentStep_absorb]
    · have h := ih hmem (fullExtentStep registry cache s acc y)
      simp only [List.foldl_cons] at h ⊢
      rw [fullExtentStep_right_comm registry cache s acc x y, h]

theorem foldl_fullExtentStep_dedup (registry : QgsMapLayerRegistry)
    (cache : QgsCoordinateTransformCache) (s : QgsMapSettings) (ids : List String)
    (acc : QgsRectangle) :
    ids.dedup.foldl (fullExtentStep registry cache s) acc =
      ids.foldl (fullExtentStep registry cache s) acc := by
  induction ids generalizing acc with
  | nil => rfl
  | cons x rest ih =>
    by_cases hx : x ∈ rest
    · rw [List.dedup_cons_of_mem hx, ih, foldl_fullExtentStep_repeat registry cache s rest x hx]
    · rw [List.dedup_cons_of_not_mem hx, List.foldl_cons, List.foldl_cons, ih]

theorem foldl_fullExtentStep_perm (registry : QgsMapLayerRegistry)
    (cache : QgsCoordinateTransformCache) (s : QgsMapSettings) (ids1 ids2 : List String)
    (hp : ids1.Perm ids2) (acc : QgsRectangle) :
    ids1.foldl (fullExtentStep registry cache s) acc =
      ids2.foldl (fullExtentStep registry cache s) acc :=
  hp.foldl_eq' (fun x _ y _ z => fullExtentStep_right_comm registry cache s z x y) acc

/-- Two layer lists with the same members give the same loop result. -/
theorem foldl_fullExtentStep_same_members (registry : QgsMapLayerRegistry)
    (cache : QgsCoordinateTransformCache) (s : QgsMapSettings) (ids1 ids2 : List String)
    (hm : ∀ x, x ∈ ids1 ↔ x ∈ ids2) (acc : QgsRectangle) :
    ids1.foldl (fullExtentStep registry cache s) acc =
      ids2.foldl (fullExtentStep registry cache s) acc := by
  rw [← foldl_fullExtentStep_dedup registry cache s ids1,
    ← foldl_fullExtentStep_dedup registry cache s ids2]
  apply foldl_fullExtentStep_perm
  rw [List.perm_ext_iff_of_nodup (List.nodup_dedup ids1) (List.nodup_dedup ids2)]
  intro x
  rw [List.mem_dedup, List.mem_dedup]
  exact hm x

/-- C14: with the registry, the transforms and the projections flag held fixed,
`fullExtent()` is the same for every permutation of the layer list, and, more
generally, for every layer list with the same members, so that repeating an
identifier does not change the result either. -/
theorem fullExtent_order_irrelevant (registry : QgsMapLayerRegistry)
    (cache : QgsCoordinateTransformCache) (s : QgsMapSettings) :
    (∀ layers : List String, layers.Perm s.layers →
      fullExtent registry cache (s.setLayers layers) = fullExtent registry cache s) ∧
    (∀ layerId ∈ s.layers, ∀ before after : List String, before ++ after = s.layers →
      fullExtent registry cache (s.setLayers (before ++ layerId :: after)) =
        fullExtent registry cache s) ∧
    (∀ layers : List String, (∀ x, x ∈ layers ↔ x ∈ s.layers) →
      fullExtent registry cache (s.setLayers layers) = fullExtent registry cache s) := by
  have key : ∀ layers : List String, (∀ x, x ∈ layers ↔ x ∈ s.layers) →
      fullExtent registry cache (s.setLayers layers) = fullExtent registry cache s := by
    intro layers hm
    unfold fullExtent
    rw [fullExtentStep_setLayers]
    exact congrArg fullExtentFallback
      (foldl_fullExtentStep_same_members registry cache s layers s.mLayers hm _)
  refine ⟨fun layers hp => key layers (fun x => hp.mem_iff), ?_, key⟩
  intro layerId hmem before after hsplit
  apply key
  intro x
  rw [← hsplit] at hmem ⊢
  simp only [List.mem_append, List.mem_cons] at hmem ⊢
  constructor
  · rintro (h | h | h)
    · exact Or.inl h
    · subst h; exact hmem
    · exact Or.inr h
  · rintro (h | h)
    · exact Or.inl h
    · exact Or.inr (Or.inr h)

/-- C14, worked example: the lists `["b", "void", "a", "ghost"]` (a permutation) and
`["a", "ghost", "b", "void", "b"]` (a repetition) give the same rectangle as
`["a", "ghost", "void", "b"]`. -/
theorem fullExtent_order_irrelevant_witness :
    fullExtent boxRegistry identityCache
        (mixedLayersState.setLayers ["b", "void", "a", "ghost"]) =
      fullExtent boxRegistry identityCache mixedLayersState ∧
    fullExtent boxRegistry identityCache
        (mixedLayersState.setLayers (["a", "ghost"] ++ "b" :: ["void", "b"])) =
      fullExtent boxRegistry identityCache mixedLayersState :=
  ⟨(fullExtent_order_irrelevant boxRegistry identityCache mixedLayersState).1
      ["b", "void", "a", "ghost"] (by decide),
   (fullExtent_order_irrelevant boxRegistry identityCache mixedLayersState).2.1
      "b" (by decide) ["a", "ghost"] ["void", "b"] (by decide)⟩

/-! ## Viewport derivation: aspect correction and pixel transform -/

/-- What a settled, valid state holds as pixel-transform parameters. -/
theorem settled_valid_mapToPixel (calculate : ScaleFormula) (s : QgsMapSettings)
    (h : Settled calculate s) (hv : s.mValid = true) :
    s.mMapToPixel = ⟨s.mMapUnitsPerPixel, s.mSize.height, s.mVisibleExtent.yMinimum,
      s.mVisibleExtent.xMinimum⟩ := by
  obtain ⟨hp, hm, hvis⟩ := settled_valid_fields calculate s h hv
  unfold Settled at h
  have e := updateDerived_of_passes calculate s hp
  rw [h] at e
  have e2 := congrArg QgsMapSettings.mMapToPixel e
  rw [hm, hvis]
  exact e2

/-- C15 amended, arithmetic read over exact reals: in every reachable valid state
with positive output dimensions, the visible extent has the midpoint of the requested extent on both axes; one of the two axes
is the requested one unchanged; x is the padded axis exactly when the y ratio is
the larger one, otherwise y is; and the padded axis grows on each side by
`(outputSize.width * unitsPerPixel - extent.width) / 2` for x, or by
`(outputSize.height * unitsPerPixel - extent.height) / 2` for y. -/
theorem centred_single_axis (calculate : ScaleFormula) (s : QgsMapSettings)
    (hr : Reachable calculate s) (hv : s.hasValidSettings = true)
    (hw : 0 < s.outputSize.width) (hh : 0 < s.outputSize.height) :
    ((s.visibleExtent.xMinimum + s.visibleExtent.xMaximum) / 2 =
        (s.extent.xMinimum + s.extent.xMaximum) / 2 ∧
     (s.visibleExtent.yMinimum + s.visibleExtent.yMaximum) / 2 =
        (s.extent.yMinimum + s.extent.yMaximum) / 2) ∧
    ((s.visibleExtent.xMinimum = s.extent.xMinimum ∧
        s.visibleExtent.xMaximum = s.extent.xMaximum) ∨
     (s.visibleExtent.yMinimum = s.extent.yMinimum ∧
        s.visibleExtent.yMaximum = s.extent.yMaximum)) ∧
    (s.extent.height / (s.outputSize.height : ℚ) > s.extent.width / (s.outputSize.width : ℚ) →
      s.visibleExtent.yMinimum = s.extent.yMinimum ∧
      s.visibleExtent.yMaximum = s.extent.yMaximum ∧
      s.extent.xMinimum - s.visibleExtent.xMinimum =
        ((s.outputSize.width : ℚ) * s.mapUnitsPerPixel - s.extent.width) / 2 ∧
      s.visibleExtent.xMaximum - s.extent.xMaximum =
        ((s.outputSize.width : ℚ) * s.mapUnitsPerPixel - s.extent.width) / 2) ∧
    (¬ s.extent.height / (s.outputSize.height : ℚ) >
        s.extent.width / (s.outputSize.width : ℚ) →
      s.visibleExtent.xMinimum = s.extent.xMinimum ∧
      s.visibleExtent.xMaximum = s.extent.xMaximum ∧
      s.extent.yMinimum - s.visibleExtent.yMinimum =
        ((s.outputSize.height : ℚ) * s.mapUnitsPerPixel - s.extent.height) / 2 ∧
      s.visibleExtent.yMaximum - s.extent.yMaximum =
        ((s.outputSize.height : ℚ) * s.mapUnitsPerPixel - s.extent.height) / 2) := by
  obtain ⟨hp, hm, hvis⟩ := settled_valid_fields calculate s (reachable_settled calculate s hr) hv
  unfold visibleExtent mapUnitsPerPixel outputSize extent at *
  rw [hvis, hm]
  unfold QgsRectangle.xMinimum QgsRectangle.xMaximum QgsRectangle.yMinimum
    QgsRectangle.yMaximum
  by_cases hc : s.mExtent.height / (s.mSize.height : ℚ) > s.mExtent.width / (s.mSize.width : ℚ)
  · obtain ⟨hm2, _, hvis2⟩ := derived_pad_x s.mExtent s.mSize hw hp.1 hc
    rw [hvis2, hm2]
    refine ⟨⟨?_, rfl⟩, Or.inr ⟨rfl, rfl⟩, fun _ => ⟨rfl, rfl, ?_, ?_⟩, fun hn => absurd hc hn⟩
    · simp only; ring
    · simp only; ring
    · simp only; ring
  · obtain ⟨hm2, _, hvis2⟩ := derived_pad_y s.mExtent s.mSize hh hp.1 hc
    rw [hvis2, hm2]
    refine ⟨⟨rfl, ?_⟩, Or.inl ⟨rfl, rfl⟩, fun hy => absurd hy hc, fun _ => ⟨rfl, rfl, ?_, ?_⟩⟩
    · simp only; ring
    · simp only; ring
    · simp only; ring

/-- C15, worked example: the extent `(0,0)-(4,2)` on a 100 x 100 output is shown as
`(0,-1)-(4,3)`: y is padded by 1 on each side, x is unchanged. -/
theorem centred_single_axis_witness :
    (sampleState.hasValidSettings = true ∧ 0 < sampleState.outputSize.width ∧
      0 < sampleState.outputSize.height ∧ sampleState.visibleExtent = ⟨0, -1, 4, 3⟩) ∧
    ((sampleState.visibleExtent.xMinimum + sampleState.visibleExtent.xMaximum) / 2 =
        (sampleState.extent.xMinimum + sampleState.extent.xMaximum) / 2 ∧
     (sampleState.visibleExtent.yMinimum + sampleState.visibleExtent.yMaximum) / 2 =
        (sampleState.extent.yMinimum + sampleState.extent.yMaximum) / 2) ∧
    ((sampleState.visibleExtent.xMinimum = sampleState.extent.xMinimum ∧
        sampleState.visibleExtent.xMaximum = sampleState.extent.xMaximum) ∨
     (sampleState.visibleExtent.yMinimum = sampleState.extent.yMinimum ∧
        sampleState.visibleExtent.yMaximum = sampleState.extent.yMaximum)) :=
  ⟨by decide!,
   (centred_single_axis sampleScale sampleState sampleState_reachable (by decide!) (by decide!)
      (by decide!)).1,
   (centred_single_axis sampleScale sampleState sampleState_reachable (by decide!) (by decide!)
      (by decide!)).2.1⟩

/-- C16 amended, arithmetic read over exact reals: in every reachable valid state
with positive output size `(w, h)`, the pixel transform holds the parameters `(mapUnitsPerPixel, h, visibleExtent.yMinimum,
visibleExtent.xMinimum)`, and the affine map with these parameters,
`px = (x - xMin) / mupp` and `py = yMax - (y - yMin) / mupp`, sends the top-left
corner `(xmin, ymax)` of the visible extent to pixel `(0, 0)` and its bottom-right
corner `(xmax, ymin)` to pixel `(w, h)`. -/
theorem pixel_transform_corners (calculate : ScaleFormula) (s : QgsMapSettings)
    (hr : Reachable calculate s) (hv : s.hasValidSettings = true)
    (hw : 0 < s.outputSize.width) (hh : 0 < s.outputSize.height) :
    s.mMapToPixel = ⟨s.mapUnitsPerPixel, s.outputSize.height, s.visibleExtent.yMinimum,
      s.visibleExtent.xMinimum⟩ ∧
    ((s.visibleExtent.xMinimum - s.mMapToPixel.xMin) / s.mMapToPixel.mMapUnitsPerPixel = 0 ∧
      s.mMapToPixel.yMax -
        (s.visibleExtent.yMaximum - s.mMapToPixel.yMin) / s.mMapToPixel.mMapUnitsPerPixel = 0) ∧
    ((s.visibleExtent.xMaximum - s.mMapToPixel.xMin) / s.mMapToPixel.mMapUnitsPerPixel =
        (s.outputSize.width : ℚ) ∧
      s.mMapToPixel.yMax -
        (s.visibleExtent.yMinimum - s.mMapToPixel.yMin) / s.mMapToPixel.mMapUnitsPerPixel =
        (s.outputSize.height : ℚ)) := by
  have hs := reachable_settled calculate s hr
  have hpix := settled_valid_mapToPixel calculate s hs hv
  obtain ⟨hp, hm, hvis⟩ := settled_valid_fields calculate s hs hv
  obtain ⟨h1, h2⟩ := derivedVisibleExtent_aspect s.mExtent s.mSize hw hh hp.1
  rw [← hvis, ← hm] at h1 h2
  have hwne : s.mSize.width ≠ 0 := ne_of_gt hw
  have hhne : s.mSize.height ≠ 0 := ne_of_gt hh
  have hpos : 0 < s.mMapUnitsPerPixel := by
    rw [hm]
    exact (derivedMapUnitsPerPixel_pos_iff s.mExtent s.mSize hp.1 hwne hhne).2 (Or.inl hw)
  have hmne : s.mMapUnitsPerPixel ≠ 0 := ne_of_gt hpos
  have hwq : (s.mSize.width : ℚ) ≠ 0 := by exact_mod_cast hwne
  have hhq : (s.mSize.height : ℚ) ≠ 0 := by exact_mod_cast hhne
  have ew : s.mVisibleExtent.width / s.mMapUnitsPerPixel = (s.mSize.width : ℚ) := by
    rw [div_eq_iff hmne, ← h1]; field_simp
  have eh : s.mVisibleExtent.height / s.mMapUnitsPerPixel = (s.mSize.height : ℚ) := by
    rw [div_eq_iff hmne, ← h2]; field_simp
  unfold QgsRectangle.width at ew
  unfold QgsRectangle.height at eh
  unfold visibleExtent mapUnitsPerPixel outputSize
  refine ⟨hpix, ?_, ?_⟩
  · rw [hpix]
    unfold QgsRectangle.xMinimum QgsRectangle.yMinimum QgsRectangle.yMaximum
    simp only [sub_self, zero_div, eh, and_self]
  · rw [hpix]
    unfold QgsRectangle.xMinimum QgsRectangle.yMinimum QgsRectangle.xMaximum
    simp only [sub_self, zero_div, ew, sub_zero, and_self]

/-- C16, worked example: in the sample state the visible extent `(0,-1)-(4,3)` is
mapped onto the pixel rectangle `(0,0)-(100,100)`. -/
theorem pixel_transform_corners_witness :
    (sampleState.hasValidSettings = true ∧ 0 < sampleState.outputSize.width ∧
      0 < sampleState.outputSize.height ∧
      sampleState.mMapToPixel = ⟨1 / 25, 100, -1, 0⟩) ∧
    sampleState.mMapToPixel = ⟨sampleState.mapUnitsPerPixel, sampleState.outputSize.height,
      sampleState.visibleExtent.yMinimum, sampleState.visibleExtent.xMinimum⟩ ∧
    ((sampleState.visibleExtent.xMinimum - sampleState.mMapToPixel.xMin) /
        sampleState.mMapToPixel.mMapUnitsPerPixel = 0 ∧
      sampleState.mMapToPixel.yMax -
        (sampleState.visibleExtent.yMaximum - sampleState.mMapToPixel.yMin) /
          sampleState.mMapToPixel.mMapUnitsPerPixel = 0) ∧
    ((sampleState.visibleExtent.xMaximum - sampleState.mMapToPixel.xMin) /
        sampleState.mMapToPixel.mMapUnitsPerPixel = (sampleState.outputSize.width : ℚ) ∧
      sampleState.mMapToPixel.yMax -
        (sampleState.visibleExtent.yMinimum - sampleState.mMapToPixel.yMin) /
          sampleState.mMapToPixel.mMapUnitsPerPixel = (sampleState.outputSize.height : ℚ)) :=
  ⟨by decide!,
   pixel_transform_corners sampleScale sampleState sampleState_reachable (by decide!)
    (by decide!) (by decide!)⟩

/-! ## Full extent: the fallback padding -/

/-- C17, the code at the failing input: the unioned rectangle `(-100,5)-(100,5)` has
zero height and is not `(0,0)-(0,0)`, so the padding branch runs. Its
`widthPad = xMinimum * 1e-8` is negative, so `xmin - widthPad` lies to the right of
`-100` and `xmax + widthPad` to the left of `100`: the returned rectangle is
narrower than the union instead of containing it. -/
theorem fullExtent_padding_shrinks :
    (QgsRectangle.height ⟨-100, 5, 100, 5⟩ = 0 ∧
      (⟨-100, 5, 100, 5⟩ : QgsRectangle) ≠ ⟨0, 0, 0, 0⟩) ∧
    fullExtentFallback ⟨-100, 5, 100, 5⟩ =
      ⟨-100 + 1 / 10 ^ 6, 5 - 5 / 10 ^ 8, 100 - 1 / 10 ^ 6, 5 + 5 / 10 ^ 8⟩ ∧
    ¬ ((fullExtentFallback ⟨-100, 5, 100, 5⟩).xMinimum ≤ -100) ∧
    ¬ ((fullExtentFallback ⟨-100, 5, 100, 5⟩).xMaximum ≥ 100) ∧
    flatState.layers.foldl (fullExtentStep boxRegistry flatCache flatState)
      QgsRectangle.setMinimal = ⟨-100, 5, 100, 5⟩ ∧
    fullExtent boxRegistry flatCache flatState =
      ⟨-100 + 1 / 10 ^ 6, 5 - 5 / 10 ^ 8, 100 - 1 / 10 ^ 6, 5 + 5 / 10 ^ 8⟩ := by
  refine ⟨by decide!, by decide!, by decide!, by decide!, by decide!, by decide!⟩

/-! ## Viewport derivation: the visible extent as a fixed point -/

/-- Padding an axis symmetrically by a non-negative amount does not bring its
width-to-mean proportion below `minProportion`. -/
theorem proportion_pad (a b pad : ℚ) (hab : a < b) (hpad : 0 ≤ pad)
    (h : ¬ ((b - a) / ((|a| + |b|) * (1 / 2)) < minProportion)) :
    ¬ ((b + pad - (a - pad)) / ((|a - pad| + |b + pad|) * (1 / 2)) < minProportion) := by
  unfold minProportion at *
  have hM : 0 < (|a| + |b|) * (1 / 2) := by
    have h1 := le_abs_self b
    have h2 := neg_abs_le a
    linarith
  have hM2 : 0 < (|a - pad| + |b + pad|) * (1 / 2) := by
    have h1 := le_abs_self (b + pad)
    have h2 := neg_abs_le (a - pad)
    linarith
  have hup : |a - pad| + |b + pad| ≤ |a| + |b| + 2 * pad := by
    have h1 := abs_sub a pad
    have h2 := abs_add b pad
    have h3 := abs_of_nonneg hpad
    linarith
  rw [not_lt, le_div_iff₀ hM] at h
  rw [not_lt, le_div_iff₀ hM2]
  have hnum : (1 : ℚ) / 10 ^ 12 = 1 / 1000000000000 := by norm_num
  rw [hnum] at h ⊢
  linarith

/-- The derived extent of a non-empty extent that passes the degeneracy guard is
itself non-empty and passes the degeneracy guard (positive output size). -/
theorem derivedVisibleExtent_passes (s : QgsMapSettings) (hp : passesGuards s)
    (hw : 0 < s.mSize.width) (hh : 0 < s.mSize.height) :
    passesGuards { s with mExtent := derivedVisibleExtent s.mExtent s.mSize } := by
  obtain ⟨hne, hguard, hsz⟩ := hp
  obtain ⟨hx, hy⟩ := (isEmpty_eq_false_iff s.mExtent).1 hne
  have hgx : ¬ (s.mExtent.width < 1 ∧ s.mExtent.height < 1) ∨
      (¬ ((s.mExtent.xmax - s.mExtent.xmin) / ((|s.mExtent.xmin| + |s.mExtent.xmax|) * (1 / 2))
          < minProportion) ∧
       ¬ ((s.mExtent.ymax - s.mExtent.ymin) / ((|s.mExtent.ymin| + |s.mExtent.ymax|) * (1 / 2))
          < minProportion)) := by
    by_cases hlt : s.mExtent.width < 1 ∧ s.mExtent.height < 1
    · right
      have hW : s.mExtent.width > 0 := by unfold QgsRectangle.width; linarith
      have hH : s.mExtent.height > 0 := by unfold QgsRectangle.height; linarith
      have hn := fun hbad => hguard ⟨⟨hW, hH, hlt.1, hlt.2⟩, hbad⟩
      unfold QgsRectangle.width QgsRectangle.height QgsRectangle.xMinimum
        QgsRectangle.xMaximum QgsRectangle.yMinimum QgsRectangle.yMaximum at hn
      exact ⟨fun hbad => hn (Or.inl hbad), fun hbad => hn (Or.inr hbad)⟩
    · left; exact hlt
  unfold passesGuards
  simp only
  by_cases hc : s.mExtent.height / (s.mSize.height : ℚ) > s.mExtent.width / (s.mSize.width : ℚ)
  · obtain ⟨_, hpos, hvis⟩ := derived_pad_x s.mExtent s.mSize hw hne hc
    rw [hvis]
    generalize ((s.mSize.width : ℚ) * (s.mExtent.height / (s.mSize.height : ℚ))
      - s.mExtent.width) * (1 / 2) = pad at hpos ⊢
    refine ⟨?_, ?_, hsz⟩
    · rw [isEmpty_eq_false_iff]; constructor <;> simp only <;> linarith
    · unfold QgsRectangle.width QgsRectangle.height QgsRectangle.xMinimum
        QgsRectangle.xMaximum QgsRectangle.yMinimum QgsRectangle.yMaximum
      simp only
      rintro ⟨⟨_, _, hw1, hh1⟩, hbad⟩
      rcases hgx with hbig | ⟨hpx, hpy⟩
      · apply hbig
        unfold QgsRectangle.width QgsRectangle.height
        constructor <;> linarith
      · rcases hbad with hbad | hbad
        · exact proportion_pad _ _ _ hx (le_of_lt hpos) hpx hbad
        · exact hpy hbad
  · obtain ⟨_, hpos, hvis⟩ := derived_pad_y s.mExtent s.mSize hh hne hc
    rw [hvis]
    generalize ((s.mSize.height : ℚ) * (s.mExtent.width / (s.mSize.width : ℚ))
      - s.mExtent.height) * (1 / 2) = pad at hpos ⊢
    refine ⟨?_, ?_, hsz⟩
    · rw [isEmpty_eq_false_iff]; constructor <;> simp only <;> linarith
    · unfold QgsRectangle.width QgsRectangle.height QgsRectangle.xMinimum
        QgsRectangle.xMaximum QgsRectangle.yMinimum QgsRectangle.yMaximum
      simp only
      rintro ⟨⟨_, _, hw1, hh1⟩, hbad⟩
      rcases hgx with hbig | ⟨hpx, hpy⟩
      · apply hbig
        unfold QgsRectangle.width QgsRectangle.height
        constructor <;> linarith
      · rcases hbad with hbad | hbad
        · exact hpx hbad
        · exact proportion_pad _ _ _ hy hpos hpy hbad

/-- An extent that already shows the same number of map units per pixel on both
axes is derived to itself. -/
theorem derived_of_exact (v : QgsRectangle) (size : QSize) (m : ℚ)
    (hh : 0 < size.height) (hne : v.isEmpty = false)
    (h1 : v.width / (size.width : ℚ) = m) (h2 : v.height / (size.height : ℚ) = m) :
    derivedMapUnitsPerPixel v size = m ∧ derivedVisibleExtent v size = v := by
  have hc : ¬ v.height / (size.height : ℚ) > v.width / (size.width : ℚ) := by
    rw [h1, h2]; exact lt_irrefl m
  obtain ⟨hm, _, hvis⟩ := derived_pad_y v size hh hne hc
  have hhq : (size.height : ℚ) ≠ 0 := by exact_mod_cast ne_of_gt hh
  have hz : ((size.height : ℚ) * (v.width / (size.width : ℚ)) - v.height) * (1 / 2) = 0 := by
    rw [h1, ← h2]; field_simp
  rw [hz] at hvis
  refine ⟨hm.trans h1, ?_⟩
  rw [hvis]
  simp

/-- C18 amended, arithmetic read over exact reals: in every reachable valid state
with positive output dimensions, `setExtent(visibleExtent())` gives a state that is still valid, with the same
`visibleExtent()` and the same `mapUnitsPerPixel()`. -/
theorem visibleExtent_fixed_point (calculate : ScaleFormula) (s : QgsMapSettings)
    (hr : Reachable calculate s) (hv : s.hasValidSettings = true)
    (hw : 0 < s.outputSize.width) (hh : 0 < s.outputSize.height) :
    (s.setExtent calculate s.visibleExtent).hasValidSettings = true ∧
    (s.setExtent calculate s.visibleExtent).visibleExtent = s.visibleExtent ∧
    (s.setExtent calculate s.visibleExtent).mapUnitsPerPixel = s.mapUnitsPerPixel := by
  obtain ⟨hp, hm, hvis⟩ := settled_valid_fields calculate s (reachable_settled calculate s hr) hv
  obtain ⟨a1, a2⟩ := derivedVisibleExtent_aspect s.mExtent s.mSize hw hh hp.1
  have hp2 := derivedVisibleExtent_passes s hp hw hh
  rw [← hvis] at hp2 a1 a2
  rw [← hm] at a1 a2
  obtain ⟨f1, f2⟩ := derived_of_exact s.mVisibleExtent s.mSize s.mMapUnitsPerPixel hh
    hp2.1 a1 a2
  unfold setExtent visibleExtent hasValidSettings mapUnitsPerPixel
  rw [updateDerived_of_passes calculate _ hp2]
  exact ⟨rfl, f2, f1⟩

/-- C18, worked example: the sample state, whose visible extent is `(0,-1)-(4,3)`. -/
theorem visibleExtent_fixed_point_witness :
    (sampleState.hasValidSettings = true ∧ 0 < sampleState.outputSize.width ∧
      0 < sampleState.outputSize.height ∧ sampleState.visibleExtent = ⟨0, -1, 4, 3⟩) ∧
    (sampleState.setExtent sampleScale sampleState.visibleExtent).hasValidSettings = true ∧
    (sampleState.setExtent sampleScale sampleState.visibleExtent).visibleExtent =
      sampleState.visibleExtent ∧
    (sampleState.setExtent sampleScale sampleState.visibleExtent).mapUnitsPerPixel =
      sampleState.mapUnitsPerPixel :=
  ⟨by decide!,
   visibleExtent_fixed_point sampleScale sampleState sampleState_reachable (by decide!)
    (by decide!) (by decide!)⟩

/-! ## Full extent: no contribution, and projections disabled -/

/-- With projections disabled, a step of the loop yields either the rectangle it was
given, or a rectangle with positive width and height. -/
theorem fullExtentStep_positive (registry : QgsMapLayerRegistry)
    (cache : QgsCoordinateTransformCache) (s : QgsMapSettings)
    (hoff : s.hasCrsTransformEnabled = false) (acc : QgsRectangle) (layerId : String) :
    fullExtentStep registry cache s acc layerId = acc ∨
    ((fullExtentStep registry cache s acc layerId).xmin <
        (fullExtentStep registry cache s acc layerId).xmax ∧
      (fullExtentStep registry cache s acc layerId).ymin <
        (fullExtentStep registry cache s acc layerId).ymax) := by
  unfold fullExtentStep
  cases registry layerId with
  | none => left; rfl
  | some lyr =>
    by_cases he : lyr.extent.isEmpty = true
    · left; simp [he]
    · right
      have hne : lyr.extent.isEmpty = false := by simpa using he
      obtain ⟨hx, hy⟩ := (isEmpty_eq_false_iff lyr.extent).1 hne
      have hid : layerExtentToOutputExtent cache s lyr lyr.extent = lyr.extent := by
        unfold layerExtentToOutputExtent; simp [hoff]
      simp only [hne, Bool.false_eq_true, if_false, hid, unionRect_eq]
      constructor
      · exact lt_of_le_of_lt (min_le_right _ _) (lt_of_lt_of_le hx (le_max_right _ _))
      · exact lt_of_le_of_lt (min_le_right _ _) (lt_of_lt_of_le hy (le_max_right _ _))

theorem foldl_fullExtentStep_positive (registry : QgsMapLayerRegistry)
    (cache : QgsCoordinateTransformCache) (s : QgsMapSettings)
    (hoff : s.hasCrsTransformEnabled = false) (ids : List String) (acc : QgsRectangle)
    (hacc : acc = QgsRectangle.setMinimal ∨ (acc.xmin < acc.xmax ∧ acc.ymin < acc.ymax)) :
    ids.foldl (fullExtentStep registry cache s) acc = QgsRectangle.setMinimal ∨
    ((ids.foldl (fullExtentStep registry cache s) acc).xmin <
        (ids.foldl (fullExtentStep registry cache s) acc).xmax ∧
      (ids.foldl (fullExtentStep registry cache s) acc).ymin <
        (ids.foldl (fullExtentStep registry cache s) acc).ymax) := by
  induction ids generalizing acc with
  | nil => exact hacc
  | cons layerId rest ih =>
    rw [List.foldl_cons]
    apply ih
    rcases fullExtentStep_positive registry cache s hoff acc layerId with h | h
    · rw [h]; exact hacc
    · exact Or.inr h

/-- C20: when no source contributes (the layer list is empty, or each identifier is
unresolvable or has an empty native extent), `fullExtent()` returns the minimal
rectangle, and passing it to `setExtent` gives an invalid state; the minimal
rectangle has non-zero width and height, so neither fallback branch fires, and it
is empty (`xmax < xmin`). With projections disabled, for every layer list, the
rectangle the loop produces has non-zero width and height, so the fallback is not
entered and `fullExtent()` returns the loop's rectangle. -/
theorem fullExtent_fallback_unreachable (registry : QgsMapLayerRegistry)
    (cache : QgsCoordinateTransformCache) (calculate : ScaleFormula) (s : QgsMapSettings) :
    ((∀ layerId ∈ s.layers, ∀ lyr, registry layerId = some lyr → lyr.extent.isEmpty = true) →
      fullExtent registry cache s = QgsRectangle.setMinimal ∧
      (s.setExtent calculate (fullExtent registry cache s)).hasValidSettings = false) ∧
    (QgsRectangle.setMinimal.width ≠ 0 ∧ QgsRectangle.setMinimal.height ≠ 0 ∧
      QgsRectangle.setMinimal.xMaximum < QgsRectangle.setMinimal.xMinimum ∧
      QgsRectangle.setMinimal.isEmpty = true) ∧
    (s.hasCrsTransformEnabled = false →
      (s.layers.foldl (fullExtentStep registry cache s) QgsRectangle.setMinimal).width ≠ 0 ∧
      (s.layers.foldl (fullExtentStep registry cache s) QgsRectangle.setMinimal).height ≠ 0 ∧
      fullExtent registry cache s =
        s.layers.foldl (fullExtentStep registry cache s) QgsRectangle.setMinimal) := by
  refine ⟨?_, ⟨setMinimal_width_ne_zero, setMinimal_height_ne_zero, by decide!, by decide!⟩, ?_⟩
  · intro hnone
    have hfull := fullExtent_no_contribution registry cache s hnone
    refine ⟨hfull, ?_⟩
    rw [hfull]
    unfold hasValidSettings setExtent
    rw [← Bool.not_eq_true, updateDerived_valid_iff]
    rintro ⟨hne, _⟩
    have hemp : QgsRectangle.setMinimal.isEmpty = true := by decide!
    rw [hemp] at hne
    exact Bool.noConfusion hne
  · intro hoff
    have hnz : (s.mLayers.foldl (fullExtentStep registry cache s) QgsRectangle.setMinimal).width
          ≠ 0 ∧
        (s.mLayers.foldl (fullExtentStep registry cache s) QgsRectangle.setMinimal).height
          ≠ 0 := by
      rcases foldl_fullExtentStep_positive registry cache s hoff s.mLayers
        QgsRectangle.setMinimal (Or.inl rfl) with h | ⟨hx, hy⟩
      · rw [h]; exact ⟨setMinimal_width_ne_zero, setMinimal_height_ne_zero⟩
      · unfold QgsRectangle.width QgsRectangle.height
        constructor
        · intro h0; linarith
        · intro h0; linarith
    refine ⟨hnz.1, hnz.2, ?_⟩
    unfold fullExtent fullExtentFallback
    have hcond : ¬ ((s.mLayers.foldl (fullExtentStep registry cache s)
          QgsRectangle.setMinimal).width = 0 ∨
        (s.mLayers.foldl (fullExtentStep registry cache s)
          QgsRectangle.setMinimal).height = 0) := by
      rintro (h | h)
      · exact hnz.1 h
      · exact hnz.2 h
    rw [if_neg hcond]
    rfl

/-- C20, worked example: the list `["origin", "origin"]` of point sources contributes
nothing, so `fullExtent()` is the minimal rectangle and `setExtent` of it is
invalid; the list `["a", "ghost", "void", "b"]` with projections disabled gives
the loop's rectangle `(0,0)-(5,4)` untouched. -/
theorem fullExtent_fallback_unreachable_witness :
    (fullExtent pointRegistry identityCache originLayersState = QgsRectangle.setMinimal ∧
      (originLayersState.setExtent sampleScale
        (fullExtent pointRegistry identityCache originLayersState)).hasValidSettings = false) ∧
    (mixedLayersState.hasCrsTransformEnabled = false ∧
      fullExtent boxRegistry identityCache mixedLayersState = ⟨0, 0, 5, 4⟩) ∧
    ((mixedLayersState.layers.foldl (fullExtentStep boxRegistry identityCache mixedLayersState)
        QgsRectangle.setMinimal).width ≠ 0 ∧
      (mixedLayersState.layers.foldl (fullExtentStep boxRegistry identityCache mixedLayersState)
        QgsRectangle.setMinimal).height ≠ 0 ∧
      fullExtent boxRegistry identityCache mixedLayersState =
        mixedLayersState.layers.foldl (fullExtentStep boxRegistry identityCache mixedLayersState)
          QgsRectangle.setMinimal) :=
  ⟨(fullExtent_fallback_unreachable pointRegistry identityCache sampleScale
      originLayersState).1 (by decide!),
   by decide!,
   (fullExtent_fallback_unreachable boxRegistry identityCache sampleScale
      mixedLayersState).2.2 (by decide!)⟩

/-! ## Viewport derivation in binary64: where rounding shows -/

/-- Rounding to `double` on known values: `0.1` and `1e-12` are the `double`s
`0x3FB999999999999A` and `0x3D719799812DEA11`; half the smallest subnormal is a
tie and goes to the even neighbour `0`, three halves of it to `2^-1073`; the
midpoint between the largest finite `double` and `2^1024` overflows; a value with
at most 53 significant bits is returned as it is. -/
theorem round_known_values :
    Dbl.round (1 / 10) = Dbl.fin (3602879701896397 / 2 ^ 55) ∧
    Dbl.round (1 / 10 ^ 12) = Dbl.fin (4951760157141521 / 2 ^ 92) ∧
    Dbl.round (1 / 2 ^ 1075) = Dbl.fin 0 ∧
    Dbl.round (3 / 2 ^ 1075) = Dbl.fin (1 / 2 ^ 1073) ∧
    Dbl.round (2 ^ 1024 - 2 ^ 970) = Dbl.inf false ∧
    Dbl.round (-(2 ^ 1024 - 2 ^ 971)) = Dbl.fin (-(2 ^ 1024 - 2 ^ 971)) ∧
    Dbl.round (9007199254740993 : ℚ) = Dbl.fin 9007199254740992 ∧
    Dbl.round (9007199254740995 : ℚ) = Dbl.fin 9007199254740996 := by
  refine ⟨by decide!, by decide!, by decide!, by decide!, by decide!, by decide!, by decide!,
    by decide!⟩

/-- C15 as stated fails in the code's `double`s: the extent `(0.1,0.3)-(0.8,0.5)` on
a 640 x 480 output is valid and padded on y only, but the visible extent reaches
further below the requested extent than above it (by `2^-55`), so its y midpoint
is not the requested one; the two growths computed in `double`s differ as well
(`0.1625` and `0.16249999999999998`). -/
theorem centred_single_axis_counterexample :
    (Machine.decimalState.hasValidSettings = true ∧
      0 < Machine.decimalState.outputSize.width ∧
      0 < Machine.decimalState.outputSize.height) ∧
    (Machine.decimalState.extent =
        ⟨Dbl.fin (3602879701896397 / 36028797018963968),
         Dbl.fin (5404319552844595 / 18014398509481984),
         Dbl.fin (3602879701896397 / 4503599627370496), Dbl.fin (1 / 2)⟩ ∧
     Machine.decimalState.visibleExtent =
        ⟨Dbl.fin (3602879701896397 / 36028797018963968),
         Dbl.fin (4953959590107545 / 36028797018963968),
         Dbl.fin (3602879701896397 / 4503599627370496),
         Dbl.fin (5967269506265907 / 9007199254740992)⟩) ∧
    (Machine.decimalState.extent.yMinimum.value -
        Machine.decimalState.visibleExtent.yMinimum.value) -
      (Machine.decimalState.visibleExtent.yMaximum.value -
        Machine.decimalState.extent.yMaximum.value) = 1 / 2 ^ 55 ∧
    (Machine.decimalState.visibleExtent.yMinimum.value +
        Machine.decimalState.visibleExtent.yMaximum.value) / 2 ≠
      (Machine.decimalState.extent.yMinimum.value +
        Machine.decimalState.extent.yMaximum.value) / 2 ∧
    Dbl.sub Machine.decimalState.extent.yMinimum Machine.decimalState.visibleExtent.yMinimum ≠
      Dbl.sub Machine.decimalState.visibleExtent.yMaximum Machine.decimalState.extent.yMaximum := by
  refine ⟨by decide!, by decide!, by decide!, by decide!, by decide!⟩

/-- C16 as stated fails in the code's `double`s: for the extent `(0,0)-(1,1)` on a
5 x 6 output the state is valid, the pixel transform holds the parameters
`(mapUnitsPerPixel, 6, visibleExtent.yMinimum, visibleExtent.xMinimum)`, and the
affine map `py = yMax - (y - yMin) / mupp` sends the top edge `ymax` of the visible
extent to `py = -2^-50`, not to `0`. -/
theorem pixel_transform_corners_counterexample :
    (Machine.unitSquareState.hasValidSettings = true ∧
      0 < Machine.unitSquareState.outputSize.width ∧
      0 < Machine.unitSquareState.outputSize.height) ∧
    Machine.unitSquareState.mMapToPixel =
      ⟨Machine.unitSquareState.mapUnitsPerPixel,
       Dbl.ofInt Machine.unitSquareState.outputSize.height,
       Machine.unitSquareState.visibleExtent.yMinimum,
       Machine.unitSquareState.visibleExtent.xMinimum⟩ ∧
    Dbl.sub Machine.unitSquareState.mMapToPixel.yMax
        (Dbl.div
          (Dbl.sub Machine.unitSquareState.visibleExtent.yMaximum
            Machine.unitSquareState.mMapToPixel.yMin)
          Machine.unitSquareState.mMapToPixel.mMapUnitsPerPixel) = Dbl.fin (-1 / 2 ^ 50) ∧
    Dbl.sub Machine.unitSquareState.mMapToPixel.yMax
        (Dbl.div
          (Dbl.sub Machine.unitSquareState.visibleExtent.yMaximum
            Machine.unitSquareState.mMapToPixel.yMin)
          Machine.unitSquareState.mMapToPixel.mMapUnitsPerPixel) ≠ Dbl.fin 0 := by
  refine ⟨by decide!, by decide!, by decide!, by decide!⟩

/-- C18 as stated fails in the code's `double`s: for the extent `(0,0)-(1,1)` on a
5 x 6 output the state is valid with `mapUnitsPerPixel()` the `double` `0.2` and
visible extent `(0, -0.1000000000000001)-(1, 1.1000000000000001)`; after
`setExtent(visibleExtent())` the state is valid, but the second pass takes the
x-padding branch: `mapUnitsPerPixel()` is `0.20000000000000004` and the visible
extent starts at `x = -2^-53`. -/
theorem visibleExtent_fixed_point_counterexample :
    (Machine.unitSquareState.hasValidSettings = true ∧
      0 < Machine.unitSquareState.outputSize.width ∧
      0 < Machine.unitSquareState.outputSize.height) ∧
    (Machine.unitSquareState.mapUnitsPerPixel =
        Dbl.fin (3602879701896397 / 18014398509481984) ∧
     Machine.unitSquareState.visibleExtent =
        ⟨Dbl.fin 0, Dbl.fin (-225179981368525 / 2251799813685248), Dbl.fin 1,
         Dbl.fin (2476979795053773 / 2251799813685248)⟩) ∧
    (Machine.unitSquareState.setExtent Machine.sampleScale
        Machine.unitSquareState.visibleExtent).hasValidSettings = true ∧
    ((Machine.unitSquareState.setExtent Machine.sampleScale
        Machine.unitSquareState.visibleExtent).mapUnitsPerPixel =
        Dbl.fin (7205759403792795 / 36028797018963968) ∧
     (Machine.unitSquareState.setExtent Machine.sampleScale
        Machine.unitSquareState.visibleExtent).visibleExtent =
        ⟨Dbl.fin (-1 / 2 ^ 53), Dbl.fin (-225179981368525 / 2251799813685248), Dbl.fin 1,
         Dbl.fin (2476979795053773 / 2251799813685248)⟩) ∧
    (Machine.unitSquareState.setExtent Machine.sampleScale
        Machine.unitSquareState.visibleExtent).mapUnitsPerPixel ≠
      Machine.unitSquareState.mapUnitsPerPixel ∧
    (Machine.unitSquareState.setExtent Machine.sampleScale
        Machine.unitSquareState.visibleExtent).visibleExtent ≠
      Machine.unitSquareState.visibleExtent := by
  refine ⟨by decide!, by decide!, by decide!, by decide!, by decide!, by decide!⟩

/-- C19, the code at the failing input: for the extent from `(0,0)` to
`(5e-324, 5e-324)` the degeneracy guard is entered (width and height are positive
and below 1), `xMean` and `yMean` round to `0.0`, and lines 77-78 divide by them
(the quotients are `+inf`, which is not below `minProportion`, so the extent is
let through). On a 2 x 2 output the state comes out valid with
`mapUnitsPerPixel() == 0.0`, the divisor of line 132. -/
theorem updateDerived_divides_by_zero :
    (Machine.subnormalState.extent = Machine.subnormalExtent ∧
      Machine.subnormalExtent.isEmpty = false) ∧
    (Dbl.gt Machine.subnormalExtent.width (Dbl.ofInt 0) = true ∧
      Dbl.gt Machine.subnormalExtent.height (Dbl.ofInt 0) = true ∧
      Dbl.lt Machine.subnormalExtent.width (Dbl.ofInt 1) = true ∧
      Dbl.lt Machine.subnormalExtent.height (Dbl.ofInt 1) = true) ∧
    (Dbl.mul
        (Dbl.add (Dbl.qAbs Machine.subnormalExtent.xMinimum)
          (Dbl.qAbs Machine.subnormalExtent.xMaximum))
        (Dbl.ofLiteral (1 / 2)) = Dbl.fin 0 ∧
     Dbl.mul
        (Dbl.add (Dbl.qAbs Machine.subnormalExtent.yMinimum)
          (Dbl.qAbs Machine.subnormalExtent.yMaximum))
        (Dbl.ofLiteral (1 / 2)) = Dbl.fin 0) ∧
    Dbl.div Machine.subnormalExtent.width
        (Dbl.mul
          (Dbl.add (Dbl.qAbs Machine.subnormalExtent.xMinimum)
            (Dbl.qAbs Machine.subnormalExtent.xMaximum))
          (Dbl.ofLiteral (1 / 2))) = Dbl.inf false ∧
    Machine.subnormalState.hasValidSettings = true ∧
    Machine.subnormalState.mapUnitsPerPixel = Dbl.fin 0 ∧
    Machine.subnormalState.visibleExtent = Machine.subnormalExtent := by
  refine ⟨by decide!, by decide!, by decide!, by decide!, by decide!, by decide!, by decide!⟩

end MapSettings
